import Mathlib

/-!
The package cmdspace/filter: from a JSON filter to a MySQL fragment.

A shallow embedding of `filter.go` (the validating where-parser, the order, limit and
skip builders, the combination helpers) and of `mysql.go` (the serializer), followed by
theorems about them.

Modelling conventions

* A Go `interface{}` holding a decoded JSON document is the tagged union `Value`.
  A `map[string]interface{}` is an association list; Go maps have distinct keys, so the
  lists of interest have distinct keys, `len` is the list length and `obj[k]` is the first
  binding of `k`.
* `errors.New(text)` is the text itself; `nil` error is `Except.ok` or `none`.
* Logging calls (`logrus`) have no effect on the results and are left out, together with
  the `op` argument of the operator builders, which is only logged.
* The `parent` back-reference embedded in every condition node is never read by the parser
  or by the serializer and is left out.
* `fmt.Sprint` of a floating-point operand is the Go library's shortest decimal rendering;
  it is taken as the parameter `fmtFloat` of the serializer.
-/

namespace filter

/-! ## Values -/

/-- A Go numeric value as accepted by the type switches of `filter.go`
(`int, int8, ..., uint64, float32, float64`): the integer kinds hold an integer, the
floating-point kinds a finite rational. -/
inductive Num where
  | int (i : Int)
  | float (q : ℚ)
  deriving DecidableEq

/-- A decoded JSON value, the dynamic content of an `interface{}`. -/
inductive Value where
  | null
  | bool (b : Bool)
  | num (n : Num)
  | str (s : String)
  | arr (a : List Value)
  | obj (m : List (String × Value))

/-- The content of the `value interface{}` field of a comparison node and of the elements of
the `values []interface{}` field of a membership node: the parser stores there either a
string (already quoted), or the number or boolean it was given. -/
inductive Scalar where
  | str (s : String)
  | num (n : Num)
  | bool (b : Bool)
  deriving DecidableEq

/-! ## Error texts (`filter.go` 153-163) -/

def invalidFilter : String := "invalid filter"
def reservedKeyword : String := "reserved keyword"
def invalidKeyword : String := "invalid keyword"
def notAnObject : String := "not an object"
def notAnArray : String := "not an array"
def emptyArray : String := "empty array"
def notSupportType : String := "not support type"
def unknownError : String := "unknown error"

/-- The outcome of a failed type assertion `w.(*T)`, a run-time panic in Go. It is kept apart
from every error text of the source. -/
def assertionPanic : String := "panic: interface conversion"

/-! ## Condition tree (`filter.go` 165-243) -/

/-- The condition tree: the implementations of the `Where` interface. -/
inductive Where where
  | andCdt (children : List Where)
  | orCdt (children : List Where)
  | eqCdt (property : String) (value : Scalar)
  | neqCdt (property : String) (value : Scalar)
  | ltCdt (property : String) (value : Scalar)
  | lteCdt (property : String) (value : Scalar)
  | gtCdt (property : String) (value : Scalar)
  | gteCdt (property : String) (value : Scalar)
  | likeCdt (property : String) (value : String)
  | nlikeCdt (property : String) (value : String)
  | inCdt (property : String) (datatype : String) (values : List Scalar)
  | ninCdt (property : String) (datatype : String) (values : List Scalar)

/-- The method `Child` of `andCdt` and `orCdt`: append a child. The other node kinds only inherit
`Child` from the embedded parent reference; the parser never calls it on them, and the model
leaves them as they are. -/
def Where.Child : Where → Where → Where
  | .andCdt children, child => .andCdt (children ++ [child])
  | .orCdt children, child => .orCdt (children ++ [child])
  | cdt, _ => cdt

/-! ## `strings.ToUpper` -/

/-- The upper-case mapping of one rune. ASCII letters and the two non-ASCII runes whose upper
case is an ASCII letter (dotless i, long s) are mapped as `unicode.ToUpper` does; the other
runes are kept, which cannot change whether a key upper-cases to one of the ASCII keywords
that the parser compares it with. -/
def toUpperRune (c : Char) : Char :=
  if 'a' ≤ c ∧ c ≤ 'z' then Char.ofNat (c.toNat - 32)
  else if c = 'ı' then 'I'
  else if c = 'ſ' then 'S'
  else c

/-- The library function `strings.ToUpper`, rune by rune. -/
def ToUpper (s : String) : String := String.mk (s.data.map toUpperRune)

/-! ## Where-parser (`filter.go` 245-546) -/

/-- The builder `processNeq`. -/
def processNeq (key : String) (val : Value) : Except String Where :=
  match val with
  | .str s => .ok (.neqCdt key (.str ("'" ++ s ++ "'")))
  | .num n => .ok (.neqCdt key (.num n))
  | .bool b => .ok (.neqCdt key (.bool b))
  | _ => .error notSupportType

/-- The builder `processLt`: `processNeq`, then the type assertion `w.(*neqCdt)`, whose failure
is the outcome `assertionPanic`. -/
def processLt (key : String) (val : Value) : Except String Where :=
  match processNeq key val with
  | .error err => .error err
  | .ok (.neqCdt property value) => .ok (.ltCdt property value)
  | .ok _ => .error assertionPanic

/-- The builder `processLte`. -/
def processLte (key : String) (val : Value) : Except String Where :=
  match processNeq key val with
  | .error err => .error err
  | .ok (.neqCdt property value) => .ok (.lteCdt property value)
  | .ok _ => .error assertionPanic

/-- The builder `processGt`. -/
def processGt (key : String) (val : Value) : Except String Where :=
  match processNeq key val with
  | .error err => .error err
  | .ok (.neqCdt property value) => .ok (.gtCdt property value)
  | .ok _ => .error assertionPanic

/-- The builder `processGte`. -/
def processGte (key : String) (val : Value) : Except String Where :=
  match processNeq key val with
  | .error err => .error err
  | .ok (.neqCdt property value) => .ok (.gteCdt property value)
  | .ok _ => .error assertionPanic

/-- The builder `processLike`. -/
def processLike (key : String) (val : Value) : Except String Where :=
  match val with
  | .str s => .ok (.likeCdt key ("'" ++ s ++ "'"))
  | _ => .error notSupportType

/-- The builder `processNlike`: `processLike`, then the type assertion `w.(*likeCdt)`. -/
def processNlike (key : String) (val : Value) : Except String Where :=
  match processLike key val with
  | .error err => .error err
  | .ok (.likeCdt property value) => .ok (.nlikeCdt property value)
  | .ok _ => .error assertionPanic

/-- The first loop of `processIn`: the datatype tag of the first string, number or boolean
element, `none` when the loop runs to its end. -/
def detectDatatype : List Value → Option String
  | [] => none
  | .str _ :: _ => some "s"
  | .num _ :: _ => some "n"
  | .bool _ :: _ => some "b"
  | _ :: rest => detectDatatype rest

/-- The loop at label `s` of `processIn`: append every string element, quoted. -/
def collectStrings : List Value → List Scalar → List Scalar
  | [], values => values
  | .str s :: rest, values => collectStrings rest (values ++ [.str ("'" ++ s ++ "'")])
  | _ :: rest, values => collectStrings rest values

/-- The loop at label `n` of `processIn`: append every number element. -/
def collectNumbers : List Value → List Scalar → List Scalar
  | [], values => values
  | .num n :: rest, values => collectNumbers rest (values ++ [.num n])
  | _ :: rest, values => collectNumbers rest values

/-- The loop at label `b` of `processIn`: append every boolean element. -/
def collectBools : List Value → List Scalar → List Scalar
  | [], values => values
  | .bool b :: rest, values => collectBools rest (values ++ [.bool b])
  | _ :: rest, values => collectBools rest values

/-- The builder `processIn`. -/
def processIn (key : String) (val : Value) : Except String Where :=
  match val with
  | .arr arr =>
    if arr.length = 0 then .error emptyArray
    else
      match detectDatatype arr with
      | none => .error emptyArray
      | some datatype =>
        if datatype = "s" then .ok (.inCdt key datatype (collectStrings arr []))
        else if datatype = "n" then .ok (.inCdt key datatype (collectNumbers arr []))
        else .ok (.inCdt key datatype (collectBools arr []))
  | _ => .error notAnArray

/-- The builder `processNin`: `processIn`, then the type assertion `w.(*inCdt)`. -/
def processNin (key : String) (val : Value) : Except String Where :=
  match processIn key val with
  | .error err => .error err
  | .ok (.inCdt property datatype values) => .ok (.ninCdt property datatype values)
  | .ok _ => .error assertionPanic

/-- The function `primitiveCdtStd`: the one key of `obj` selects the operator builder. The
`for ... range` over the map returns in its first iteration; the code after the loop is the
`[]` case. -/
def primitiveCdtStd (key : String) (obj : List (String × Value)) : Except String Where :=
  if obj.length ≠ 1 then .error notAnObject
  else
    match obj with
    | (op, val) :: _ =>
      let op := ToUpper op
      if op = "NEQ" then processNeq key val
      else if op = "LT" then processLt key val
      else if op = "LTE" then processLte key val
      else if op = "GT" then processGt key val
      else if op = "GTE" then processGte key val
      else if op = "LIKE" then processLike key val
      else if op = "NLIKE" then processNlike key val
      else if op = "IN" then processIn key val
      else if op = "NIN" then processNin key val
      else .error invalidKeyword
    | [] => .error unknownError

/-- The function `primitiveCdt`: dispatch on the dynamic type of the value. -/
def primitiveCdt (key : String) (val : Value) : Except String Where :=
  match val with
  | .str v => .ok (.eqCdt key (.str ("'" ++ v ++ "'")))
  | .num n => .ok (.eqCdt key (.num n))
  | .bool b => .ok (.eqCdt key (.bool b))
  | .obj v => primitiveCdtStd key v
  | _ => .error notSupportType

mutual
/-- The function `processObj`. The `for ... range` over the one-key map returns in its first
iteration; the code after the loop is the `[]` case. The call `compoundCdt(parent, keyword, arr)`
is written out (its emptiness test, its fresh node, its loop), so that the recursion is
structural; `processObj_one` states it as the call. -/
def processObj (obj : List (String × Value)) : Except String Where :=
  if obj.length ≠ 1 then .error notAnObject
  else
    match obj with
    | (key, val) :: _ =>
      let keyword := ToUpper key
      if keyword = "AND" ∨ keyword = "OR" then
        match val with
        | .arr arr =>
          if arr.length = 0 then .error emptyArray
          else compoundLoop arr (if keyword = "AND" then .andCdt [] else .orCdt [])
        | _ => .error notAnArray
      else if keyword = "NEQ" ∨ keyword = "LT" ∨ keyword = "LTE" ∨ keyword = "GT"
          ∨ keyword = "GTE" ∨ keyword = "IN" ∨ keyword = "NIN" then
        .error reservedKeyword
      else primitiveCdt key val
    | [] => .error unknownError
termination_by structural obj
/-- The loop `for _, v := range val` of `compoundCdt`, `cdt` being the node under
construction. -/
def compoundLoop (val : List Value) (cdt : Where) : Except String Where :=
  match val with
  | [] => .ok cdt
  | v :: rest =>
    match compoundElem v with
    | .ok child => compoundLoop rest (cdt.Child child)
    | .error err => .error err
termination_by structural val
/-- One iteration of the loop of `compoundCdt`, up to the call of `Child`: the type assertion
`v.(map[string]interface{})` and the recursive call. -/
def compoundElem (v : Value) : Except String Where :=
  match v with
  | .obj obj => processObj obj
  | _ => .error notAnObject
termination_by structural v
end

/-- The function `compoundCdt`. -/
def compoundCdt (key : String) (val : List Value) : Except String Where :=
  if val.length = 0 then .error emptyArray
  else compoundLoop val (if key = "AND" then .andCdt [] else .orCdt [])

/-! ## Filter (`filter.go` 17-137, 548-625) -/

/-- The type `Order`, a slice of strings: `none` is the nil slice. -/
abbrev Order := Option (List String)

/-- The built-in `append(order, s)` on a possibly nil slice. -/
def Order.append (order : Order) (s : String) : Order :=
  match order with
  | none => some [s]
  | some l => some (l ++ [s])

/-- The built-in `len(order)`. -/
def Order.len (order : Order) : Nat :=
  match order with
  | none => 0
  | some l => l.length

/-- The struct `Filter`: `none` is a nil field. -/
structure Filter where
  Where : Option Where
  Order : Order
  Limit : Option Int
  Skip : Option Int
  err : Option String

/-- The constructor `New`: the zero value of `Filter`. -/
def New : Filter := ⟨none, none, none, none, none⟩

/-- The method `Error`: the recorded error, and the filter with its slot cleared. -/
def Filter.Error (f : Filter) : Option String × Filter :=
  (f.err, { f with err := none })

/-- The method `BuildWhere`. -/
def Filter.BuildWhere (f : Filter) (obj : Value) : Filter :=
  let f := { f with Where := none }
  match obj with
  | .obj w =>
    match processObj w with
    | .ok w1 => { f with Where := some w1 }
    | .error err => { f with err := some err }
  | _ => { f with err := some invalidFilter }

/-- The method `And`: the loop over the variadic arguments, `children` being
`parent.children`. -/
def andArgs : List Where → List Where → List Where
  | [], children => children
  | .andCdt cs :: rest, children => andArgs rest (children ++ cs)
  | cdt :: rest, children => andArgs rest (children ++ [cdt])

/-- The method `And`. -/
def Filter.And (f : Filter) (ws : List filter.Where) : Filter :=
  let children : List filter.Where :=
    match f.Where with
    | none => []
    | some (.andCdt cs) => [] ++ cs
    | some cdt => [] ++ [cdt]
  { f with Where := some (.andCdt (andArgs ws children)) }

/-- The method `Or`: the loop over the variadic arguments. -/
def orArgs : List Where → List Where → List Where
  | [], children => children
  | .orCdt cs :: rest, children => orArgs rest (children ++ cs)
  | cdt :: rest, children => orArgs rest (children ++ [cdt])

/-- The method `Or`. -/
def Filter.Or (f : Filter) (ws : List filter.Where) : Filter :=
  let children : List filter.Where :=
    match f.Where with
    | none => []
    | some (.orCdt cs) => [] ++ cs
    | some cdt => [] ++ [cdt]
  { f with Where := some (.orCdt (orArgs ws children)) }

/-- The function `processOrder`: append the string elements; its error is always nil. -/
def processOrder (order : Order) (arr : List Value) : Except String Order :=
  match arr with
  | [] => .ok order
  | .str s :: rest => processOrder (order.append s) rest
  | _ :: rest => processOrder order rest

/-- The method `BuildOrder`. -/
def Filter.BuildOrder (f : Filter) (obj : Value) : Filter :=
  let f := { f with Order := none }
  let f :=
    match obj with
    | .str o => { f with Order := filter.Order.append f.Order o }
    | .arr o =>
      match processOrder none o with
      | .ok order => { f with Order := order }
      | .error err => { f with err := some err }
    | _ => { f with err := some invalidFilter }
  if filter.Order.len f.Order = 0 then { f with Order := none } else f

/-- The conversion `reflect.ValueOf(l).Convert(reflect.TypeOf(int64)).Int()`. An integer kind is
reduced modulo `2^64` into the signed range (the identity on that range); a floating-point
number is truncated toward zero. For a floating-point number outside the signed 64-bit range
the Go specification leaves the result to the implementation; the model gives `-2^63`, the
result on amd64. -/
def toInt64 (n : Num) : Int :=
  match n with
  | .int i => (i + 2 ^ 63) % 2 ^ 64 - 2 ^ 63
  | .float q =>
    let t := Int.tdiv q.num q.den
    if -(2 ^ 63) ≤ t ∧ t < 2 ^ 63 then t else -(2 ^ 63)

/-- The method `BuildLimit`. -/
def Filter.BuildLimit (f : Filter) (obj : Value) : Filter :=
  let f := { f with Limit := none }
  match obj with
  | .num l => { f with Limit := some (toInt64 l) }
  | _ => { f with err := some invalidFilter }

/-- The method `BuildSkip`. -/
def Filter.BuildSkip (f : Filter) (obj : Value) : Filter :=
  let f := { f with Skip := none }
  match obj with
  | .num l => { f with Skip := some (toInt64 l) }
  | _ => { f with err := some invalidFilter }

/-- The method `Build`; `obj[k]` is `List.lookup`. -/
def Filter.Build (f : Filter) (obj : List (String × Value)) : Filter :=
  let f := match obj.lookup "where" with
    | some val => f.BuildWhere val
    | none => f
  let f := match obj.lookup "order" with
    | some val => f.BuildOrder val
    | none => f
  let f := match obj.lookup "limit" with
    | some val => f.BuildLimit val
    | none => f
  let f := match obj.lookup "skip" with
    | some val => f.BuildSkip val
    | none => f
  f

/-! ## Serializer (`mysql.go`) -/

/-- The library call `fmt.Sprint(v)` on the content of a node: a string as it is, an integer
in decimal, a boolean as `true` or `false`, a floating-point number by `fmtFloat`. -/
def Sprint (fmtFloat : ℚ → String) (v : Scalar) : String :=
  match v with
  | .str s => s
  | .num (.int i) => toString i
  | .num (.float q) => fmtFloat q
  | .bool b => if b then "true" else "false"

/-- The loop of `inCdt.MySQL` and `ninCdt.MySQL`, `str` being the text so far. -/
def valuesLoop (fmtFloat : ℚ → String) : List Scalar → String → String
  | [], str => str
  | val :: rest, str =>
    valuesLoop fmtFloat rest
      (if str = "" then Sprint fmtFloat val else str ++ ", " ++ Sprint fmtFloat val)

mutual
/-- The methods `MySQL` of the twelve node kinds. -/
def Where.MySQL (fmtFloat : ℚ → String) (cdt : Where) : String :=
  match cdt with
  | .andCdt children => childrenLoop fmtFloat " AND " children 0 "(" ++ ")"
  | .orCdt children => childrenLoop fmtFloat " OR " children 0 "(" ++ ")"
  | .eqCdt property value => property ++ " = " ++ Sprint fmtFloat value
  | .neqCdt property value => property ++ " != " ++ Sprint fmtFloat value
  | .ltCdt property value => property ++ " < " ++ Sprint fmtFloat value
  | .lteCdt property value => property ++ " <= " ++ Sprint fmtFloat value
  | .gtCdt property value => property ++ " > " ++ Sprint fmtFloat value
  | .gteCdt property value => property ++ " >= " ++ Sprint fmtFloat value
  | .likeCdt property value => property ++ " LIKE " ++ value
  | .nlikeCdt property value => property ++ " NOT LIKE " ++ value
  | .inCdt property _ values => property ++ " IN (" ++ valuesLoop fmtFloat values "" ++ ")"
  | .ninCdt property _ values => property ++ " NOT IN (" ++ valuesLoop fmtFloat values "" ++ ")"
termination_by structural cdt
/-- The loop `for i, child := range cdt.children` of `andCdt.MySQL` (separator `" AND "`) and
of `orCdt.MySQL` (separator `" OR "`), `str` being the text so far. -/
def childrenLoop (fmtFloat : ℚ → String) (sep : String) (children : List Where) (i : Nat)
    (str : String) : String :=
  match children with
  | [] => str
  | child :: rest =>
    childrenLoop fmtFloat sep rest (i + 1)
      (if i = 0 then str ++ child.MySQL fmtFloat else str ++ (sep ++ child.MySQL fmtFloat))
termination_by structural children
end

/-- The method `Order.MySQL`: `strings.Join(order, ", ")`. -/
def Order.MySQL (order : Order) : String :=
  match order with
  | none => ""
  | some l => ", ".intercalate l

/-- The library call `strconv.FormatInt(i, 10)`. -/
def FormatInt (i : Int) : String := toString i

/-- The method `Filter.MySQL`. -/
def Filter.MySQL (fmtFloat : ℚ → String) (f : Filter) : String :=
  let sql := ""
  let sql := match f.Where with
    | some w => sql ++ (" WHERE " ++ w.MySQL fmtFloat)
    | none => sql
  let sql := match f.Order with
    | some o => sql ++ (" ORDER BY " ++ filter.Order.MySQL (some o))
    | none => sql
  let sql := match f.Limit with
    | some l => sql ++ (" LIMIT " ++ FormatInt l)
    | none => sql
  let sql := match f.Skip with
    | some s => sql ++ (" OFFSET " ++ FormatInt s)
    | none => sql
  sql

/-! ## The example of `examples/basics.go` -/

/-- The document decoded by `build` in `examples/basics.go`; `encoding/json` decodes every
number to a `float64`. -/
def basicsExample : List (String × Value) :=
  [("where", .obj [("and", .arr [
      .obj [("name", .str "astra")],
      .obj [("gender", .obj [("in", .arr [.str "man", .str "woman"])])],
      .obj [("address", .obj [("like", .str "_ca%")])]])]),
   ("order", .arr [.str "x desc", .str "y asc"]),
   ("limit", .num (.float 10)),
   ("skip", .num (.float 100))]

/-! ## Vocabulary of the specification -/

/-- The keys that `processObj` rejects as reserved keywords. -/
def reservedKeys : List String := ["NEQ", "LT", "LTE", "GT", "GTE", "IN", "NIN"]

/-- The operator keywords of a property condition. -/
def operatorKeys : List String :=
  ["NEQ", "LT", "LTE", "GT", "GTE", "LIKE", "NLIKE", "IN", "NIN"]

/-- A property key: its upper-case form is none of `AND`, `OR` and the reserved keywords. -/
def isPropertyKey (key : String) : Prop :=
  ToUpper key ∉ "AND" :: "OR" :: reservedKeys

instance (key : String) : Decidable (isPropertyKey key) := by
  unfold isPropertyKey; infer_instance

/-- A logical key: its upper-case form is `AND` or `OR`. -/
def isLogicalKey (key : String) : Prop :=
  ToUpper key = "AND" ∨ ToUpper key = "OR"

instance (key : String) : Decidable (isLogicalKey key) := by
  unfold isLogicalKey; infer_instance

/-- A string, a number or a boolean. -/
def Value.isScalar : Value → Bool
  | .str _ => true
  | .num _ => true
  | .bool _ => true
  | _ => false

/-- A string. -/
def Value.isString : Value → Bool
  | .str _ => true
  | _ => false

/-- An array. -/
def Value.isArray : Value → Bool
  | .arr _ => true
  | _ => false

/-- The character of a decimal digit. -/
def decimalDigit (d : Nat) : Char := Char.ofNat (d + 48)

/-- The decimal digits of `n`, most significant first and without a leading zero (one digit for
zero); `fuel` bounds the number of digits. -/
def decimalDigits : Nat → Nat → List Char
  | 0, _ => []
  | fuel + 1, n =>
    if n < 10 then [decimalDigit n]
    else decimalDigits fuel (n / 10) ++ [decimalDigit (n % 10)]

/-- The decimal form of a natural number. -/
def decimalNat (n : Nat) : String := String.mk (decimalDigits (n + 1) n)

/-- The decimal form of an integer: a minus sign for a negative one, then the decimal form of
the absolute value. -/
def decimal (i : Int) : String :=
  if i < 0 then "-" ++ decimalNat i.natAbs else decimalNat i.natAbs

/-- The number that a list of decimal digits denotes, most significant digit first. -/
def digitsValue (cs : List Char) : Nat :=
  cs.foldl (fun acc c => 10 * acc + (c.toNat - 48)) 0

/-- The SQL literal of a scalar: a string in single quotes, an integer in decimal form, a
boolean as `true` or `false`, a floating-point number as the library renders it (`fmtFloat`). -/
def literal (fmtFloat : ℚ → String) : Value → String
  | .str s => "'" ++ s ++ "'"
  | .num (.int i) => decimal i
  | .num (.float q) => fmtFloat q
  | .bool true => "true"
  | .bool false => "false"
  | _ => ""

/-- The SQL operator of a comparison keyword. -/
def opText (op : String) : String :=
  if op = "NEQ" then "!="
  else if op = "LT" then "<"
  else if op = "LTE" then "<="
  else if op = "GT" then ">"
  else if op = "GTE" then ">="
  else if op = "LIKE" then "LIKE"
  else if op = "NLIKE" then "NOT LIKE"
  else ""

/-- One clause of the fragment: the keyword and the body of a non-null field, nothing for a
null field. -/
def clause (keyword : String) (body : Option String) : String :=
  match body with
  | some b => keyword ++ b
  | none => ""

/-- The datatype tag of an array element: `s` for a string, `n` for a number, `b` for a boolean,
none for any other value. -/
def Value.datatype : Value → Option String
  | .str _ => some "s"
  | .num _ => some "n"
  | .bool _ => some "b"
  | _ => none

/-- The datatype of the first string, number or boolean element of an array, in array order. -/
def firstDatatype (arr : List Value) : Option String :=
  (arr.filterMap Value.datatype).head?

/-- The content that a node holds for a scalar: the string in single quotes, the number or the
boolean itself. -/
def Value.toScalar : Value → Scalar
  | .str s => .str ("'" ++ s ++ "'")
  | .num n => .num n
  | .bool b => .bool b
  | _ => .str ""

/-- The elements of datatype `d` of an array, in their original order. -/
def elementsOf (d : String) (arr : List Value) : List Value :=
  arr.filter (fun v => v.datatype = some d)

/-- The value list of a membership clause: the elements of datatype `d` as SQL literals, joined
by a comma and a space. -/
def membershipList (fmtFloat : ℚ → String) (d : String) (arr : List Value) : String :=
  ", ".intercalate ((elementsOf d arr).map (literal fmtFloat))

/-- The children that a tree contributes to an `AND` node: its own children for an `AND` node,
the tree alone otherwise. -/
def expandAnd : Where → List Where
  | .andCdt children => children
  | w => [w]

/-- The children that a tree contributes to an `OR` node: its own children for an `OR` node, the
tree alone otherwise. -/
def expandOr : Where → List Where
  | .orCdt children => children
  | w => [w]

/-- An `AND` node. -/
def Where.isAnd : Where → Bool
  | .andCdt _ => true
  | _ => false

/-- An `OR` node. -/
def Where.isOr : Where → Bool
  | .orCdt _ => true
  | _ => false

/-- An object (a mapping). -/
def Value.isObject : Value → Bool
  | .obj _ => true
  | _ => false

/-- A number. -/
def Value.isNumber : Value → Bool
  | .num _ => true
  | _ => false

/-- The input that `BuildWhere` rejects, with its error: a value that is not a mapping
(`invalidFilter`), or a mapping that the where-parser rejects (the error of the parser). -/
def whereError (v : Value) : Option String :=
  match v with
  | .obj m =>
    match processObj m with
    | .ok _ => none
    | .error e => some e
  | _ => some invalidFilter

/-- The input that `BuildOrder` rejects: a value that is neither a string nor a list. -/
def orderError (v : Value) : Option String :=
  match v with
  | .str _ => none
  | .arr _ => none
  | _ => some invalidFilter

/-- The input that `BuildLimit` and `BuildSkip` reject: a value that is not a number. -/
def numberError (v : Value) : Option String :=
  match v with
  | .num _ => none
  | _ => some invalidFilter

/-- The string elements of a list, in their original order. -/
def stringsOf : List Value → List String
  | [] => []
  | .str s :: rest => s :: stringsOf rest
  | _ :: rest => stringsOf rest

/-- The signed 64-bit range. -/
def inInt64 (z : Int) : Prop := -(2 ^ 63) ≤ z ∧ z < 2 ^ 63

instance (z : Int) : Decidable (inInt64 z) := by
  unfold inInt64; infer_instance

/-- A rational with its fractional part discarded: rounded toward zero. -/
def truncate (q : ℚ) : Int := if 0 ≤ q then ⌊q⌋ else ⌈q⌉

/-- The integer part of a number: the integer itself, a floating-point number with its
fractional part discarded. -/
def Num.intPart : Num → Int
  | .int i => i
  | .float q => truncate q

/-- A build call on a `Filter`, with its argument. -/
inductive BuildCall where
  | Build (obj : List (String × Value))
  | BuildWhere (obj : Value)
  | BuildOrder (obj : Value)
  | BuildLimit (obj : Value)
  | BuildSkip (obj : Value)

/-- The filter after one build call. -/
def BuildCall.run (f : Filter) : BuildCall → Filter
  | .Build obj => f.Build obj
  | .BuildWhere obj => f.BuildWhere obj
  | .BuildOrder obj => f.BuildOrder obj
  | .BuildLimit obj => f.BuildLimit obj
  | .BuildSkip obj => f.BuildSkip obj

/-- The most recent error of a sequence of outcomes, oldest first; none when no outcome is an
error. -/
def lastError : List (Option String) → Option String
  | [] => none
  | e :: rest => (lastError rest).or e

/-- The error that a build call records, none when the call does not fail. `Build` runs the
builders of the keys present in the order `where`, `order`, `limit`, `skip`; its error is the one of
the last builder that fails. -/
def BuildCall.error : BuildCall → Option String
  | .Build obj =>
    lastError [(obj.lookup "where").bind whereError, (obj.lookup "order").bind orderError,
      (obj.lookup "limit").bind numberError, (obj.lookup "skip").bind numberError]
  | .BuildWhere obj => whereError obj
  | .BuildOrder obj => orderError obj
  | .BuildLimit obj => numberError obj
  | .BuildSkip obj => numberError obj

/-- The content of a string element. -/
def Scalar.isStr : Scalar → Bool
  | .str _ => true
  | _ => false

/-- The content of a number element. -/
def Scalar.isNum : Scalar → Bool
  | .num _ => true
  | _ => false

/-- The content of a boolean element. -/
def Scalar.isBool : Scalar → Bool
  | .bool _ => true
  | _ => false

/-- A well-formed value list of a membership node: not empty, with the tag `s`, `n` or `b`, and
with values of that one datatype only (all strings, all numbers, or all booleans). -/
def valuesWellFormed (datatype : String) (values : List Scalar) : Bool :=
  !values.isEmpty &&
    ((datatype == "s" && values.all Scalar.isStr) ||
     (datatype == "n" && values.all Scalar.isNum) ||
     (datatype == "b" && values.all Scalar.isBool))

mutual
/-- A well-formed tree: every `And`/`Or` node in it has at least one child, and every `In`/`Nin` node
in it has a well-formed value list. -/
def Where.wellFormed (cdt : Where) : Bool :=
  match cdt with
  | .andCdt children => !children.isEmpty && wellFormedAll children
  | .orCdt children => !children.isEmpty && wellFormedAll children
  | .inCdt _ datatype values => valuesWellFormed datatype values
  | .ninCdt _ datatype values => valuesWellFormed datatype values
  | _ => true
termination_by structural cdt
/-- Every tree of the list is well formed. -/
def wellFormedAll (children : List Where) : Bool :=
  match children with
  | [] => true
  | child :: rest => child.wellFormed && wellFormedAll rest
termination_by structural children
end

/-- The error texts that the where-parser can return. -/
def parserErrors : List String :=
  [notAnObject, notAnArray, emptyArray, reservedKeyword, invalidKeyword, notSupportType]

/-- The outcome of a parse in the closed set: a well-formed tree, or one of the error texts of
the where-parser. -/
def goodOutcome (r : Except String Where) : Prop :=
  match r with
  | .ok t => t.wellFormed = true
  | .error e => e ∈ parserErrors

/-! ## Unfolding lemmas -/

theorem processObj_one (key : String) (val : Value) :
    processObj [(key, val)] =
      if ToUpper key = "AND" ∨ ToUpper key = "OR" then
        match val with
        | .arr arr => compoundCdt (ToUpper key) arr
        | _ => .error notAnArray
      else if ToUpper key ∈ reservedKeys then .error reservedKeyword
      else primitiveCdt key val := by
  cases val <;> simp [processObj, compoundCdt, reservedKeys]

theorem processObj_length_ne_one (obj : List (String × Value)) (h : obj.length ≠ 1) :
    processObj obj = .error notAnObject := by
  rw [processObj.eq_def]
  exact if_pos h

theorem compoundElem_obj (obj : List (String × Value)) :
    compoundElem (.obj obj) = processObj obj := by
  rw [compoundElem.eq_def]

theorem compoundElem_not_obj (v : Value) (h : ∀ obj, v ≠ .obj obj) :
    compoundElem v = .error notAnObject := by
  cases v with
  | obj m => exact absurd rfl (h m)
  | _ => rw [compoundElem.eq_def]

theorem compoundLoop_nil (cdt : Where) : compoundLoop [] cdt = .ok cdt := by
  rw [compoundLoop.eq_def]

theorem compoundLoop_cons (v : Value) (rest : List Value) (cdt : Where) :
    compoundLoop (v :: rest) cdt =
      match compoundElem v with
      | .ok child => compoundLoop rest (cdt.Child child)
      | .error err => .error err := by
  rw [compoundLoop.eq_def]

/-- When every element parses, the loop of `compoundCdt` returns the node with the parsed
elements appended in order. -/
theorem compoundLoop_ok (vs : List Value) (ts : List Where)
    (h : List.Forall₂ (fun v t => compoundElem v = .ok t) vs ts) (cdt : Where) :
    compoundLoop vs cdt = .ok (ts.foldl Where.Child cdt) := by
  induction h generalizing cdt with
  | nil => exact compoundLoop_nil cdt
  | cons hv _ ih =>
    rw [compoundLoop_cons, hv]
    exact ih _

/-- The loop of `compoundCdt` stops at the first element that fails, with its error. -/
theorem compoundLoop_error (pre : List Value) (v : Value) (post : List Value) (e : String)
    (hpre : ∀ u ∈ pre, ∃ t, compoundElem u = .ok t) (hv : compoundElem v = .error e)
    (cdt : Where) : compoundLoop (pre ++ v :: post) cdt = .error e := by
  induction pre generalizing cdt with
  | nil => rw [List.nil_append, compoundLoop_cons, hv]
  | cons u pre ih =>
    obtain ⟨t, ht⟩ := hpre u (List.mem_cons_self u pre)
    rw [List.cons_append, compoundLoop_cons, ht]
    exact ih (fun w hw => hpre w (List.mem_cons_of_mem u hw)) _

/-- Either every element of an array parses, or there is a first one that fails. -/
theorem elems_ok_or_first_error (vs : List Value) :
    (∃ ts, List.Forall₂ (fun v t => compoundElem v = .ok t) vs ts) ∨
    (∃ pre v post e, vs = pre ++ v :: post ∧ (∀ u ∈ pre, ∃ t, compoundElem u = .ok t) ∧
      compoundElem v = .error e) := by
  induction vs with
  | nil => exact Or.inl ⟨[], List.Forall₂.nil⟩
  | cons v vs ih =>
    cases hv : compoundElem v with
    | error e => exact Or.inr ⟨[], v, vs, e, rfl, fun _ hu => absurd hu (List.not_mem_nil _), hv⟩
    | ok t =>
      rcases ih with ⟨ts, hts⟩ | ⟨pre, w, post, e, hvs, hpre, hw⟩
      · exact Or.inl ⟨t :: ts, List.Forall₂.cons hv hts⟩
      · refine Or.inr ⟨v :: pre, w, post, e, by rw [hvs, List.cons_append], ?_, hw⟩
        intro u hu
        rcases List.mem_cons.mp hu with rfl | hu
        · exact ⟨t, hv⟩
        · exact hpre u hu

theorem elems_ok_of_forall₂ (vs : List Value) (ts : List Where)
    (h : List.Forall₂ (fun v t => compoundElem v = .ok t) vs ts) :
    ∀ u ∈ vs, ∃ t, compoundElem u = .ok t := by
  induction h with
  | nil => intro u hu; exact absurd hu (List.not_mem_nil u)
  | cons hv _ ih =>
    intro u hu
    rcases List.mem_cons.mp hu with rfl | hu
    · exact ⟨_, hv⟩
    · exact ih u hu

theorem foldl_Child_andCdt (ts cs : List Where) :
    ts.foldl Where.Child (.andCdt cs) = .andCdt (cs ++ ts) := by
  induction ts generalizing cs with
  | nil => simp
  | cons t ts ih => simp [List.foldl_cons, Where.Child, ih]

theorem foldl_Child_orCdt (ts cs : List Where) :
    ts.foldl Where.Child (.orCdt cs) = .orCdt (cs ++ ts) := by
  induction ts generalizing cs with
  | nil => simp
  | cons t ts ih => simp [List.foldl_cons, Where.Child, ih]

theorem processObj_property (key : String) (val : Value) (h : isPropertyKey key) :
    processObj [(key, val)] = primitiveCdt key val := by
  have h1 : ¬ (ToUpper key = "AND" ∨ ToUpper key = "OR") := by
    intro hk
    apply h
    rcases hk with hk | hk <;> simp [hk]
  have h2 : ToUpper key ∉ reservedKeys := fun hk =>
    h (List.mem_cons_of_mem _ (List.mem_cons_of_mem _ hk))
  rw [processObj_one, if_neg h1, if_neg h2]

theorem processObj_logical (key : String) (val : Value) (h : isLogicalKey key) :
    processObj [(key, val)] =
      match val with
      | .arr arr => compoundCdt (ToUpper key) arr
      | _ => .error notAnArray := by
  have h1 : ToUpper key = "AND" ∨ ToUpper key = "OR" := h
  rw [processObj_one, if_pos h1]

theorem MySQL_eqCdt (fmtFloat : ℚ → String) (property : String) (value : Scalar) :
    (Where.eqCdt property value).MySQL fmtFloat = property ++ " = " ++ Sprint fmtFloat value := by
  rw [Where.MySQL.eq_def]

theorem primitiveCdtStd_one (key op : String) (val : Value) :
    primitiveCdtStd key [(op, val)] =
      if ToUpper op = "NEQ" then processNeq key val
      else if ToUpper op = "LT" then processLt key val
      else if ToUpper op = "LTE" then processLte key val
      else if ToUpper op = "GT" then processGt key val
      else if ToUpper op = "GTE" then processGte key val
      else if ToUpper op = "LIKE" then processLike key val
      else if ToUpper op = "NLIKE" then processNlike key val
      else if ToUpper op = "IN" then processIn key val
      else if ToUpper op = "NIN" then processNin key val
      else .error invalidKeyword := by
  simp [primitiveCdtStd]

/-- A property condition `{p: {op: v}}` is handed to `primitiveCdtStd`. -/
theorem processObj_operator (p op : String) (v : Value) (hp : isPropertyKey p) :
    processObj [(p, .obj [(op, v)])] = primitiveCdtStd p [(op, v)] := by
  rw [processObj_property p _ hp, primitiveCdt]

/-- In an array under `AND` or `OR`, the first element that fails gives the error of the whole
parse. -/
theorem processObj_logical_error (k : String) (hk : isLogicalKey k) (pre : List Value)
    (v : Value) (post : List Value) (e : String)
    (hpre : ∀ u ∈ pre, ∃ t, compoundElem u = .ok t) (hv : compoundElem v = .error e) :
    processObj [(k, .arr (pre ++ v :: post))] = .error e := by
  have hlen : ¬ (pre ++ v :: post).length = 0 := by simp
  rw [processObj_logical k _ hk]
  simp only [compoundCdt, if_neg hlen]
  exact compoundLoop_error pre v post e hpre hv _

/-- In a non-empty array under `AND` or `OR` whose elements all parse, the parse succeeds. -/
theorem processObj_logical_ok (k : String) (hk : isLogicalKey k) (arr : List Value)
    (hne : arr ≠ []) (ts : List Where)
    (h : List.Forall₂ (fun v t => compoundElem v = .ok t) arr ts) :
    ∃ t, processObj [(k, .arr arr)] = .ok t := by
  have hlen : ¬ arr.length = 0 := by
    cases arr with
    | nil => exact absurd rfl hne
    | cons a arr => simp
  rw [processObj_logical k _ hk]
  simp only [compoundCdt, if_neg hlen]
  exact ⟨_, compoundLoop_ok arr ts h _⟩

/-! ## Lemmas on the serializer -/

theorem intercalate_go_append (sep x acc : String) (l : List String) :
    String.intercalate.go (x ++ acc) sep l = x ++ String.intercalate.go acc sep l := by
  induction l generalizing acc with
  | nil => rfl
  | cons a l ih =>
    rw [String.intercalate.go, String.intercalate.go, String.append_assoc, String.append_assoc,
      ih, String.append_assoc]

theorem childrenLoop_nil (fmtFloat : ℚ → String) (sep : String) (i : Nat) (str : String) :
    childrenLoop fmtFloat sep [] i str = str := by
  rw [childrenLoop.eq_def]

theorem childrenLoop_cons (fmtFloat : ℚ → String) (sep : String) (child : Where)
    (rest : List Where) (i : Nat) (str : String) :
    childrenLoop fmtFloat sep (child :: rest) i str =
      childrenLoop fmtFloat sep rest (i + 1)
        (if i = 0 then str ++ child.MySQL fmtFloat else str ++ (sep ++ child.MySQL fmtFloat)) := by
  rw [childrenLoop.eq_def]

theorem childrenLoop_succ (fmtFloat : ℚ → String) (sep : String) (children : List Where)
    (i : Nat) (str : String) :
    childrenLoop fmtFloat sep children (i + 1) str =
      String.intercalate.go str sep (children.map (Where.MySQL fmtFloat)) := by
  induction children generalizing i str with
  | nil => rw [childrenLoop_nil]; rfl
  | cons c cs ih =>
    rw [childrenLoop_cons, if_neg (Nat.succ_ne_zero i), ih, List.map_cons,
      String.intercalate.go, String.append_assoc]

/-- The loop of `andCdt.MySQL` and `orCdt.MySQL` joins the children with the separator. -/
theorem childrenLoop_zero (fmtFloat : ℚ → String) (sep : String) (children : List Where)
    (str : String) :
    childrenLoop fmtFloat sep children 0 str =
      str ++ sep.intercalate (children.map (Where.MySQL fmtFloat)) := by
  cases children with
  | nil => rw [childrenLoop_nil]; exact (String.append_empty str).symm
  | cons c cs =>
    rw [childrenLoop_cons, if_pos rfl, childrenLoop_succ, intercalate_go_append]
    rfl

theorem MySQL_andCdt (fmtFloat : ℚ → String) (children : List Where) :
    (Where.andCdt children).MySQL fmtFloat =
      "(" ++ " AND ".intercalate (children.map (Where.MySQL fmtFloat)) ++ ")" := by
  rw [Where.MySQL.eq_def]
  exact congrArg (· ++ ")") (childrenLoop_zero fmtFloat " AND " children "(")

theorem MySQL_orCdt (fmtFloat : ℚ → String) (children : List Where) :
    (Where.orCdt children).MySQL fmtFloat =
      "(" ++ " OR ".intercalate (children.map (Where.MySQL fmtFloat)) ++ ")" := by
  rw [Where.MySQL.eq_def]
  exact congrArg (· ++ ")") (childrenLoop_zero fmtFloat " OR " children "(")

/-! ## The decimal form printed by `strconv.FormatInt` and `fmt.Sprint` -/

theorem digitChar_eq (d : Nat) (h : d < 10) : Nat.digitChar d = decimalDigit d := by
  interval_cases d <;> rfl

theorem toDigitsCore_eq (fuel : Nat) : ∀ (n : Nat) (ds : List Char), n < fuel →
    Nat.toDigitsCore 10 fuel n ds = decimalDigits fuel n ++ ds := by
  induction fuel with
  | zero => intro n ds h; exact absurd h (Nat.not_lt_zero _)
  | succ fuel ih =>
    intro n ds h
    rw [Nat.toDigitsCore, decimalDigits]
    by_cases hn : n < 10
    · have h0 : n / 10 = 0 := Nat.div_eq_of_lt hn
      have hm : n % 10 = n := Nat.mod_eq_of_lt hn
      simp only [h0, hm, if_pos hn, if_true, digitChar_eq n hn]
      rfl
    · have h0 : ¬ n / 10 = 0 := by omega
      have hlt : n / 10 < fuel := by omega
      simp only [if_neg h0, if_neg hn]
      rw [ih _ _ hlt, digitChar_eq _ (Nat.mod_lt n (by decide)), List.append_assoc]
      rfl

theorem Nat_repr_eq_decimalNat (n : Nat) : Nat.repr n = decimalNat n := by
  rw [Nat.repr, Nat.toDigits, toDigitsCore_eq _ _ _ (Nat.lt_succ_self n), List.append_nil]
  rfl

/-- The text that the model prints for an integer is its decimal form. -/
theorem toString_eq_decimal (i : Int) : toString i = decimal i := by
  cases i with
  | ofNat m =>
    have h : ¬ Int.ofNat m < 0 := Int.not_lt.mpr (Int.ofNat_nonneg m)
    show Nat.repr m = decimal (Int.ofNat m)
    rw [Nat_repr_eq_decimalNat, decimal, if_neg h]
    rfl
  | negSucc m =>
    show "-" ++ Nat.repr (Nat.succ m) = decimal (Int.negSucc m)
    rw [Nat_repr_eq_decimalNat, decimal, if_pos (Int.negSucc_lt_zero m)]
    rfl

theorem FormatInt_eq_decimal (i : Int) : FormatInt i = decimal i :=
  toString_eq_decimal i

theorem decimalDigit_value (d : Nat) (h : d < 10) : (decimalDigit d).toNat - 48 = d := by
  interval_cases d <;> rfl

theorem digitsValue_append (cs : List Char) (c : Char) :
    digitsValue (cs ++ [c]) = 10 * digitsValue cs + (c.toNat - 48) := by
  simp [digitsValue, List.foldl_append]

theorem digitsValue_decimalDigits (fuel : Nat) : ∀ n, n < fuel →
    digitsValue (decimalDigits fuel n) = n := by
  induction fuel with
  | zero => intro n h; exact absurd h (Nat.not_lt_zero _)
  | succ fuel ih =>
    intro n h
    rw [decimalDigits]
    by_cases hn : n < 10
    · rw [if_pos hn]
      simp [digitsValue, decimalDigit_value n hn]
    · rw [if_neg hn, digitsValue_append, ih _ (by omega),
        decimalDigit_value _ (Nat.mod_lt n (by decide))]
      omega

/-- The digits of the decimal form of `n` denote `n`. -/
theorem digitsValue_decimalNat (n : Nat) : digitsValue (decimalNat n).data = n :=
  digitsValue_decimalDigits _ n (Nat.lt_succ_self n)

theorem Sprint_str (fmtFloat : ℚ → String) (s : String) :
    Sprint fmtFloat (.str s) = s := rfl

theorem Sprint_num (fmtFloat : ℚ → String) (n : Num) :
    Sprint fmtFloat (.num n) = literal fmtFloat (.num n) := by
  cases n with
  | int i => exact toString_eq_decimal i
  | float q => rfl

theorem Sprint_bool (fmtFloat : ℚ → String) (b : Bool) :
    Sprint fmtFloat (.bool b) = literal fmtFloat (.bool b) := by
  cases b <;> rfl

theorem literal_str (fmtFloat : ℚ → String) (s : String) :
    literal fmtFloat (.str s) = "'" ++ s ++ "'" := rfl

/-- What `fmt.Sprint` prints for the content of a node, stated without the printer of the
model. -/
theorem Sprint_eq (fmtFloat : ℚ → String) :
    (∀ s, Sprint fmtFloat (.str s) = s)
    ∧ (∀ i, Sprint fmtFloat (.num (.int i)) = decimal i)
    ∧ (∀ q, Sprint fmtFloat (.num (.float q)) = fmtFloat q)
    ∧ Sprint fmtFloat (.bool true) = "true"
    ∧ Sprint fmtFloat (.bool false) = "false" :=
  ⟨fun _ => rfl, fun i => toString_eq_decimal i, fun _ => rfl, rfl, rfl⟩

/-! ## Claims -/

/-- C1: `Build` on a fresh `Filter` with the document of `examples/basics.go`, then `MySQL()`,
returns exactly the fragment ` WHERE (name = 'astra' AND gender IN ('man', 'woman') AND
address LIKE '_ca%') ORDER BY x desc, y asc LIMIT 10 OFFSET 100`, and no error is recorded. -/
theorem C1_build_basics (fmtFloat : ℚ → String) :
    (New.Build basicsExample).MySQL fmtFloat =
      " WHERE (name = 'astra' AND gender IN ('man', 'woman') AND address LIKE '_ca%') ORDER BY x desc, y asc LIMIT 10 OFFSET 100"
    ∧ (New.Build basicsExample).err = none
    ∧ (New.Build basicsExample).Error.1 = none :=
  ⟨rfl, rfl, rfl⟩

/-- C2: for every `Filter` state, `MySQL()` is the concatenation, in this order, of the `WHERE`,
`ORDER BY`, `LIMIT` and `OFFSET` clauses of the non-null fields (the serialized tree, the
entries joined by `, `, the decimal forms of `Limit` and `Skip`); it is empty when the four fields
are null, and otherwise it starts with one space that is followed by a character other than a
space. The decimal form is `decimal`: digits that denote the number, most significant first,
after a minus sign for a negative number. -/
theorem C2_MySQL_clauses (fmtFloat : ℚ → String) (f : Filter) :
    f.MySQL fmtFloat =
        clause " WHERE " (f.Where.map (Where.MySQL fmtFloat)) ++
        clause " ORDER BY " (f.Order.map (fun o => ", ".intercalate o)) ++
        clause " LIMIT " (f.Limit.map decimal) ++
        clause " OFFSET " (f.Skip.map decimal)
    ∧ (∀ i : Int, 0 ≤ i → (digitsValue (decimal i).data : Int) = i)
    ∧ (∀ i : Int, i < 0 → decimal i = "-" ++ decimal (-i))
    ∧ (f.Where = none ∧ f.Order = none ∧ f.Limit = none ∧ f.Skip = none →
        f.MySQL fmtFloat = "")
    ∧ (¬ (f.Where = none ∧ f.Order = none ∧ f.Limit = none ∧ f.Skip = none) →
        ∃ c rest, (f.MySQL fmtFloat).data = ' ' :: c :: rest ∧ c ≠ ' ') := by
  obtain ⟨w, o, l, s, e⟩ := f
  refine ⟨?_, ?_, ?_, ?_, ?_⟩
  · cases w <;> cases o <;> cases l <;> cases s <;>
      simp [Filter.MySQL, clause, Order.MySQL, String.append_assoc, FormatInt_eq_decimal]
  · intro i hi
    rw [decimal, if_neg (not_lt.mpr hi), digitsValue_decimalNat]
    exact Int.natAbs_of_nonneg hi
  · intro i hi
    have h2 : ¬ -i < 0 := by omega
    rw [decimal, if_pos hi, decimal, if_neg h2, Int.natAbs_neg]
  · rintro ⟨rfl, rfl, rfl, rfl⟩
    rfl
  · intro h
    have hW : (" WHERE " : String).data = ' ' :: 'W' :: ("HERE " : String).data := rfl
    have hO : (" ORDER BY " : String).data = ' ' :: 'O' :: ("RDER BY " : String).data := rfl
    have hL : (" LIMIT " : String).data = ' ' :: 'L' :: ("IMIT " : String).data := rfl
    have hS : (" OFFSET " : String).data = ' ' :: 'O' :: ("FFSET " : String).data := rfl
    have hE : ("" : String).data = [] := rfl
    cases w <;> cases o <;> cases l <;> cases s <;>
      first
      | (simp only [Filter.MySQL, String.data_append, hW, hO, hL, hS, hE, List.cons_append,
          List.nil_append]
         exact ⟨_, _, rfl, by decide⟩)
      | exact absurd (And.intro rfl (And.intro rfl (And.intro rfl rfl))) h

/-- C3 fails as stated for numbers. `encoding/json` decodes the JSON numbers `1` and `1.0` to the same
`float64`, and the fragment is computed from the decoded value: for every rendering of floats it
is `a = ` followed by the one text printed for that value, so it is not the verbatim text of both
`{"a": 1}` and `{"a": 1.0}`. Likewise, where `fmt.Sprint` prints `1e+21` for the `float64` decoded from
`1000000000000000000000`, the fragment is `a = 1e+21`. -/
theorem C3_counterexample :
    (∀ fmtFloat : ℚ → String,
      (New.BuildWhere (.obj [("a", .num (.float 1))])).Where.map (Where.MySQL fmtFloat) =
        some ("a = " ++ fmtFloat 1))
    ∧ (¬ ∃ fmtFloat : ℚ → String,
      (New.BuildWhere (.obj [("a", .num (.float 1))])).Where.map (Where.MySQL fmtFloat) =
        some "a = 1"
      ∧ (New.BuildWhere (.obj [("a", .num (.float 1))])).Where.map (Where.MySQL fmtFloat) =
        some "a = 1.0")
    ∧ (∀ fmtFloat : ℚ → String, fmtFloat (10 ^ 21) = "1e+21" →
      (New.BuildWhere (.obj [("a", .num (.float (10 ^ 21)))])).Where.map (Where.MySQL fmtFloat) =
        some "a = 1e+21"
      ∧ (New.BuildWhere (.obj [("a", .num (.float (10 ^ 21)))])).Where.map (Where.MySQL fmtFloat) ≠
        some "a = 1000000000000000000000") := by
  have hout : ∀ (fmtFloat : ℚ → String) (q : ℚ),
      (New.BuildWhere (.obj [("a", .num (.float q))])).Where.map (Where.MySQL fmtFloat) =
        some ("a = " ++ fmtFloat q) := fun _ _ => rfl
  refine ⟨fun fmtFloat => hout fmtFloat 1, ?_, ?_⟩
  · rintro ⟨fmtFloat, h1, h2⟩
    rw [h1] at h2
    exact absurd (Option.some.inj h2) (by decide)
  · intro fmtFloat hfmt
    rw [hout, hfmt]
    exact ⟨rfl, fun h => absurd (Option.some.inj h) (by decide)⟩

/-- C3, amended: for a property key (its upper-case form is none of `AND`, `OR`, `NEQ`, `LT`, `LTE`, `GT`,
`GTE`, `IN`, `NIN`), `BuildWhere` on the one-key mapping `{key: v}` followed by the serialization of
`Where` gives `key = 's'` for a string `s`, and `key = ` followed by the text that `fmt.Sprint` prints
for the decoded value when `v` is a number or a boolean: the decimal form for a number of an
integer kind, `true` or `false` for a boolean, the library rendering of the `float64` for a
floating-point number (not the text the number was written with); the key is unchanged. For an
array or null, `Where` stays null and the error `notSupportType` is recorded. -/
theorem C3_property_scalar (fmtFloat : ℚ → String) (f : Filter) (key : String)
    (hkey : isPropertyKey key) :
    (∀ s : String, (f.BuildWhere (.obj [(key, .str s)])).Where.map (Where.MySQL fmtFloat) =
        some (key ++ " = '" ++ s ++ "'"))
    ∧ (∀ i : Int, (f.BuildWhere (.obj [(key, .num (.int i))])).Where.map (Where.MySQL fmtFloat) =
        some (key ++ " = " ++ decimal i))
    ∧ (∀ q : ℚ, (f.BuildWhere (.obj [(key, .num (.float q))])).Where.map (Where.MySQL fmtFloat) =
        some (key ++ " = " ++ fmtFloat q))
    ∧ (f.BuildWhere (.obj [(key, .bool true)])).Where.map (Where.MySQL fmtFloat) =
        some (key ++ " = " ++ "true")
    ∧ (f.BuildWhere (.obj [(key, .bool false)])).Where.map (Where.MySQL fmtFloat) =
        some (key ++ " = " ++ "false")
    ∧ (∀ v : Value, v.isArray = true ∨ v = .null →
        (f.BuildWhere (.obj [(key, v)])).Where = none ∧
        (f.BuildWhere (.obj [(key, v)])).err = some notSupportType) := by
  refine ⟨?_, ?_, ?_, ?_, ?_, ?_⟩
  · intro s
    simp only [Filter.BuildWhere, processObj_property key _ hkey, primitiveCdt, Option.map_some',
      MySQL_eqCdt, Sprint, String.append_assoc]
    rfl
  · intro i
    simp only [Filter.BuildWhere, processObj_property key _ hkey, primitiveCdt, Option.map_some',
      MySQL_eqCdt, Sprint, toString_eq_decimal]
  · intro q
    simp only [Filter.BuildWhere, processObj_property key _ hkey, primitiveCdt, Option.map_some',
      MySQL_eqCdt, Sprint]
  · simp only [Filter.BuildWhere, processObj_property key _ hkey, primitiveCdt, Option.map_some',
      MySQL_eqCdt, Sprint]
    rfl
  · simp only [Filter.BuildWhere, processObj_property key _ hkey, primitiveCdt, Option.map_some',
      MySQL_eqCdt, Sprint]
    rfl
  · intro v hv
    rcases hv with hv | rfl
    · cases v <;> simp [Value.isArray] at hv
      simp only [Filter.BuildWhere, processObj_property key _ hkey, primitiveCdt, and_self]
    · simp only [Filter.BuildWhere, processObj_property key _ hkey, primitiveCdt, and_self]

theorem C3_property_scalar_witness :
    isPropertyKey "carClass" ∧
    (New.BuildWhere (.obj [("carClass", .str "fullsize")])).Where.map
      (Where.MySQL (fun _ => "")) = some ("carClass" ++ " = '" ++ "fullsize" ++ "'") ∧
    (New.BuildWhere (.obj [("carClass", .num (.int (-12)))])).Where.map
      (Where.MySQL (fun _ => "")) = some ("carClass" ++ " = " ++ decimal (-12)) ∧
    decimal (-12) = "-12" :=
  ⟨by decide, (C3_property_scalar (fun _ => "") New "carClass" (by decide)).1 "fullsize",
    (C3_property_scalar (fun _ => "") New "carClass" (by decide)).2.1 (-12), by decide⟩

/-- C4: for a key whose upper-case form is `AND` (respectively `OR`) and a non-empty array of
objects `e1, ..., en` that `processObj` parses to `t1, ..., tn`, `processObj` on `{k: [e1, ..., en]}`
returns the `And` (respectively `Or`) node with the children `t1, ..., tn` in array order, whose
serialization is the serializations of the children joined by ` AND ` (respectively ` OR `),
in parentheses. -/
theorem C4_compound (fmtFloat : ℚ → String) (k : String) (es : List (List (String × Value)))
    (ts : List Where) (hne : es ≠ [])
    (h : List.Forall₂ (fun e t => processObj e = .ok t) es ts) :
    (ToUpper k = "AND" →
      processObj [(k, .arr (es.map Value.obj))] = .ok (.andCdt ts) ∧
      (Where.andCdt ts).MySQL fmtFloat =
        "(" ++ " AND ".intercalate (ts.map (Where.MySQL fmtFloat)) ++ ")")
    ∧ (ToUpper k = "OR" →
      processObj [(k, .arr (es.map Value.obj))] = .ok (.orCdt ts) ∧
      (Where.orCdt ts).MySQL fmtFloat =
        "(" ++ " OR ".intercalate (ts.map (Where.MySQL fmtFloat)) ++ ")") := by
  have hlen : ¬ (es.map Value.obj).length = 0 := by
    cases es with
    | nil => exact absurd rfl hne
    | cons e es => simp
  have hall : List.Forall₂ (fun v t => compoundElem v = .ok t) (es.map Value.obj) ts := by
    rw [List.forall₂_map_left_iff]
    exact h
  constructor
  · intro hk
    refine ⟨?_, MySQL_andCdt fmtFloat ts⟩
    rw [processObj_logical k _ (Or.inl hk)]
    simp only [compoundCdt, if_neg hlen, hk, if_true]
    rw [compoundLoop_ok _ ts hall, foldl_Child_andCdt, List.nil_append]
  · intro hk
    refine ⟨?_, MySQL_orCdt fmtFloat ts⟩
    rw [processObj_logical k _ (Or.inr hk)]
    have hno : ¬ ("OR" : String) = "AND" := by decide
    simp only [compoundCdt, if_neg hlen, hk, if_neg hno]
    rw [compoundLoop_ok _ ts hall, foldl_Child_orCdt, List.nil_append]

theorem C4_compound_witness :
    ([[("a", Value.num (.int 1))], [("b", Value.num (.int 2))]] : List (List (String × Value))) ≠ []
    ∧ List.Forall₂ (fun e t => processObj e = .ok t)
        [[("a", Value.num (.int 1))], [("b", Value.num (.int 2))]]
        [Where.eqCdt "a" (.num (.int 1)), Where.eqCdt "b" (.num (.int 2))]
    ∧ ToUpper "and" = "AND"
    ∧ processObj [("and", .arr [.obj [("a", .num (.int 1))], .obj [("b", .num (.int 2))]])] =
        .ok (.andCdt [.eqCdt "a" (.num (.int 1)), .eqCdt "b" (.num (.int 2))])
    ∧ (Where.andCdt [.eqCdt "a" (.num (.int 1)), .eqCdt "b" (.num (.int 2))]).MySQL (fun _ => "") =
        "(a = 1 AND b = 2)" :=
  ⟨by simp, List.Forall₂.cons rfl (List.Forall₂.cons rfl List.Forall₂.nil), by decide,
    ((C4_compound (fun _ => "") "and" [[("a", .num (.int 1))], [("b", .num (.int 2))]]
      [.eqCdt "a" (.num (.int 1)), .eqCdt "b" (.num (.int 2))] (by simp)
      (List.Forall₂.cons rfl (List.Forall₂.cons rfl List.Forall₂.nil))).1 (by decide)).1,
    ((C4_compound (fun _ => "") "and" [[("a", .num (.int 1))], [("b", .num (.int 2))]]
      [.eqCdt "a" (.num (.int 1)), .eqCdt "b" (.num (.int 2))] (by simp)
      (List.Forall₂.cons rfl (List.Forall₂.cons rfl List.Forall₂.nil))).1 (by decide)).2⟩

/-- C5: for every mapping with no key or with two or more keys, whatever its keys and values,
`processObj` fails with `notAnObject`, and `BuildWhere` on that mapping leaves `Where` null
(and records that error). -/
theorem C5_not_one_key (f : Filter) (obj : List (String × Value))
    (h : obj.length = 0 ∨ 2 ≤ obj.length) :
    processObj obj = .error notAnObject
    ∧ (f.BuildWhere (.obj obj)).Where = none
    ∧ (f.BuildWhere (.obj obj)).err = some notAnObject := by
  have hne : obj.length ≠ 1 := by omega
  have hp := processObj_length_ne_one obj hne
  refine ⟨hp, ?_, ?_⟩ <;> simp only [Filter.BuildWhere, hp]

theorem C5_not_one_key_witness :
    (([("str", Value.str "string"), ("bool", Value.bool true)] : List (String × Value)).length = 0
      ∨ 2 ≤ ([("str", Value.str "string"), ("bool", Value.bool true)] :
          List (String × Value)).length)
    ∧ processObj [("str", .str "string"), ("bool", .bool true)] = .error notAnObject :=
  ⟨by decide, (C5_not_one_key New [("str", .str "string"), ("bool", .bool true)] (by decide)).1⟩

/-- C6 fails as stated: under `and`, an array whose first element is not an object and whose
second element has the reserved key `in` is rejected with `notAnObject`, not with
`reservedKeyword`. -/
theorem C6_counterexample :
    isLogicalKey "and" ∧ ToUpper "in" ∈ reservedKeys ∧
    processObj [("and", .arr [.str "A", .obj [("in", .arr [.str "A", .str "B"])]])] =
      .error notAnObject ∧
    processObj [("and", .arr [.str "A", .obj [("in", .arr [.str "A", .str "B"])]])] ≠
      .error reservedKeyword :=
  ⟨by decide, by decide, rfl, by
    intro h
    have h1 : processObj [("and", .arr [.str "A", .obj [("in", .arr [.str "A", .str "B"])]])] =
        .error notAnObject := rfl
    rw [h1] at h
    exact absurd (Except.error.inj h) (by decide)⟩

/-- C6, amended: for a key whose upper-case form is `NEQ`, `LT`, `LTE`, `GT`, `GTE`, `IN` or `NIN` and
every value, `processObj` on `{key: value}` fails with `reservedKeyword`; when the mapping is an
element of an `AND`/`OR` array the whole parse fails, and it fails with `reservedKeyword` when every
element before it in the array parses. -/
theorem C6_reserved_key (key : String) (value : Value) (hkey : ToUpper key ∈ reservedKeys) :
    processObj [(key, value)] = .error reservedKeyword
    ∧ (∀ (k : String) (pre post : List Value), isLogicalKey k →
        (∀ u ∈ pre, ∃ t, compoundElem u = .ok t) →
        processObj [(k, .arr (pre ++ .obj [(key, value)] :: post))] = .error reservedKeyword)
    ∧ (∀ (k : String) (pre post : List Value), isLogicalKey k →
        ∃ e, processObj [(k, .arr (pre ++ .obj [(key, value)] :: post))] = .error e) := by
  have hroot : processObj [(key, value)] = .error reservedKeyword := by
    have h1 : ¬ (ToUpper key = "AND" ∨ ToUpper key = "OR") := by
      intro hk
      rcases hk with hk | hk <;> rw [hk] at hkey <;> revert hkey <;> decide
    rw [processObj_one, if_neg h1, if_pos hkey]
  have helem : compoundElem (.obj [(key, value)]) = .error reservedKeyword := by
    rw [compoundElem_obj, hroot]
  refine ⟨hroot, ?_, ?_⟩
  · intro k pre post hk hpre
    exact processObj_logical_error k hk pre _ post _ hpre helem
  · intro k pre post hk
    rcases elems_ok_or_first_error pre with ⟨ts, hts⟩ | ⟨pre1, w, post1, e, hsplit, hpre1, hw⟩
    · refine ⟨_, processObj_logical_error k hk pre _ post _ ?_ helem⟩
      intro u hu
      exact elems_ok_of_forall₂ pre ts hts u hu
    · refine ⟨e, ?_⟩
      rw [hsplit, List.append_assoc, List.cons_append]
      exact processObj_logical_error k hk pre1 w _ e hpre1 hw

theorem C6_reserved_key_witness :
    ToUpper "in" ∈ reservedKeys ∧
    processObj [("in", .arr [.str "A", .str "B"])] = .error reservedKeyword :=
  ⟨by decide, (C6_reserved_key "in" (.arr [.str "A", .str "B"]) (by decide)).1⟩

/-- C7 fails as stated: `like` and `nlike` are operator keywords of a property condition, but as the
key of a where object they are not rejected. `processObj` on `{"like": "x"}` and on `{"nlike": "x"}`
returns an equality node on a property of that name, not the error `reservedKeyword`. -/
theorem C7_counterexample :
    ToUpper "like" ∈ operatorKeys ∧ ToUpper "nlike" ∈ operatorKeys
    ∧ processObj [("p", .obj [("like", .str "x")])] = .ok (.likeCdt "p" "'x'")
    ∧ processObj [("p", .obj [("nlike", .str "x")])] = .ok (.nlikeCdt "p" "'x'")
    ∧ processObj [("like", .str "x")] = .ok (.eqCdt "like" (.str "'x'"))
    ∧ processObj [("nlike", .str "x")] = .ok (.eqCdt "nlike" (.str "'x'"))
    ∧ processObj [("like", .str "x")] ≠ .error reservedKeyword
    ∧ processObj [("nlike", .str "x")] ≠ .error reservedKeyword
    ∧ (New.BuildWhere (.obj [("like", .str "x")])).MySQL (fun _ => "") = " WHERE like = 'x'" := by
  have h1 : processObj [("like", .str "x")] = .ok (.eqCdt "like" (.str "'x'")) := rfl
  have h2 : processObj [("nlike", .str "x")] = .ok (.eqCdt "nlike" (.str "'x'")) := rfl
  refine ⟨by decide, by decide, rfl, rfl, h1, h2, ?_, ?_, rfl⟩
  · rw [h1]
    intro h
    cases h
  · rw [h2]
    intro h
    cases h

/-- C7, amended: the comparison keywords `NEQ`, `LT`, `LTE`, `GT`, `GTE`, `IN`, `NIN` (every operator
keyword of a property condition except `LIKE` and `NLIKE`, in any letter case) are rejected with
`reservedKeyword` when used as the key of a where object, whatever the value. `LIKE` and `NLIKE` are
not reserved: as a key they are a property name, and `{key: value}` is parsed as a condition
on that property. -/
theorem C7_reserved_operators (key : String) (value : Value)
    (hkey : ToUpper key ∈ operatorKeys) :
    (ToUpper key ≠ "LIKE" ∧ ToUpper key ≠ "NLIKE" →
      processObj [(key, value)] = .error reservedKeyword)
    ∧ (ToUpper key = "LIKE" ∨ ToUpper key = "NLIKE" →
      processObj [(key, value)] = primitiveCdt key value
      ∧ ∀ s, processObj [(key, .str s)] = .ok (.eqCdt key (.str ("'" ++ s ++ "'")))) := by
  constructor
  · rintro ⟨hl, hn⟩
    have hres : ToUpper key ∈ reservedKeys := by
      simp only [operatorKeys, List.mem_cons, List.mem_singleton, List.not_mem_nil,
        or_false] at hkey
      simp only [reservedKeys, List.mem_cons, List.mem_singleton, List.not_mem_nil, or_false]
      tauto
    have hlog : ¬ (ToUpper key = "AND" ∨ ToUpper key = "OR") := by
      intro hk
      rcases hk with hk | hk <;> rw [hk] at hres <;> revert hres <;> decide
    rw [processObj_one, if_neg hlog, if_pos hres]
  · intro hk
    have hprop : isPropertyKey key := by
      unfold isPropertyKey
      rcases hk with hk | hk <;> rw [hk] <;> decide
    exact ⟨processObj_property key value hprop, fun s => processObj_property key _ hprop⟩

theorem C7_reserved_operators_witness :
    ToUpper "Gte" ∈ operatorKeys ∧ (ToUpper "Gte" ≠ "LIKE" ∧ ToUpper "Gte" ≠ "NLIKE") ∧
    processObj [("Gte", .num (.int 3))] = .error reservedKeyword :=
  ⟨by decide, by decide,
    (C7_reserved_operators "Gte" (.num (.int 3)) (by decide)).1 (by decide)⟩

/-- C8: for a one-key mapping whose key is `AND` or `OR` in any letter case: a value that is not
an array fails with `notAnArray`; an empty array fails with `emptyArray`; a non-empty array fails
if and only if some element is not an object or fails to parse, and the error is then the one of
the first such element in array order (`notAnObject` for a non-object, its own parse error for an
object). A failure carries an error and no tree. -/
theorem C8_compound_errors (k : String) (hk : isLogicalKey k) :
    (∀ v : Value, v.isArray = false → processObj [(k, v)] = .error notAnArray)
    ∧ processObj [(k, .arr [])] = .error emptyArray
    ∧ (∀ arr : List Value, arr ≠ [] →
        ((∃ e, processObj [(k, .arr arr)] = .error e) ↔
          ∃ v ∈ arr, (∀ obj, v ≠ .obj obj) ∨ ∃ obj e, v = .obj obj ∧ processObj obj = .error e))
    ∧ (∀ (pre : List Value) (v : Value) (post : List Value),
        (∀ u ∈ pre, ∃ obj t, u = .obj obj ∧ processObj obj = .ok t) →
        ((∀ obj, v ≠ .obj obj) →
          processObj [(k, .arr (pre ++ v :: post))] = .error notAnObject)
        ∧ (∀ obj e, v = .obj obj → processObj obj = .error e →
          processObj [(k, .arr (pre ++ v :: post))] = .error e)) := by
  have hokay : ∀ u : Value, (∃ obj t, u = .obj obj ∧ processObj obj = .ok t) →
      ∃ t, compoundElem u = .ok t := by
    rintro u ⟨obj, t, rfl, ht⟩
    exact ⟨t, by rw [compoundElem_obj, ht]⟩
  have hfail : ∀ (u : Value) (e : String), compoundElem u = .error e →
      (∀ obj, u ≠ .obj obj) ∨ ∃ obj e, u = .obj obj ∧ processObj obj = .error e := by
    intro u e hu
    cases u with
    | obj m => exact Or.inr ⟨m, e, rfl, by rw [← compoundElem_obj, hu]⟩
    | _ => exact Or.inl (fun obj h => by cases h)
  refine ⟨?_, ?_, ?_, ?_⟩
  · intro v hv
    rw [processObj_logical k _ hk]
    cases v <;> simp [Value.isArray] at hv ⊢
  · rw [processObj_logical k _ hk]
    rfl
  · intro arr hne
    constructor
    · rintro ⟨e, he⟩
      rcases elems_ok_or_first_error arr with ⟨ts, hts⟩ | ⟨pre, w, post, e1, hsplit, _, hw⟩
      · obtain ⟨t, ht⟩ := processObj_logical_ok k hk arr hne ts hts
        rw [ht] at he
        cases he
      · exact ⟨w, by rw [hsplit]; simp, hfail w e1 hw⟩
    · rintro ⟨v, hv, hbad⟩
      rcases elems_ok_or_first_error arr with ⟨ts, hts⟩ | ⟨pre, w, post, e1, hsplit, hpre, hw⟩
      · obtain ⟨t, ht⟩ := elems_ok_of_forall₂ arr ts hts v hv
        rcases hbad with hno | ⟨obj, e, rfl, he⟩
        · rw [compoundElem_not_obj v hno] at ht
          cases ht
        · rw [compoundElem_obj, he] at ht
          cases ht
      · exact ⟨e1, by rw [hsplit]; exact processObj_logical_error k hk pre w post e1 hpre hw⟩
  · intro pre v post hpre
    have hpre1 : ∀ u ∈ pre, ∃ t, compoundElem u = .ok t := fun u hu => hokay u (hpre u hu)
    constructor
    · intro hno
      exact processObj_logical_error k hk pre v post _ hpre1 (compoundElem_not_obj v hno)
    · rintro obj e rfl he
      exact processObj_logical_error k hk pre _ post e hpre1 (by rw [compoundElem_obj, he])

theorem C8_compound_errors_witness :
    isLogicalKey "and" ∧
    processObj [("and", .obj [("bool", .bool true)])] = .error notAnArray ∧
    processObj [("and", .arr [])] = .error emptyArray :=
  ⟨by decide, (C8_compound_errors "and" (by decide)).1 _ rfl,
    (C8_compound_errors "and" (by decide)).2.1⟩

/-- C9 fails as stated for numbers. `encoding/json` decodes the JSON numbers `1` and `1.0` to the same
`float64`, and the fragment is computed from the decoded value: for every rendering of floats it
is `a > ` followed by the one text printed for that value, so it is not the verbatim text of both
`{"a": {"gt": 1}}` and `{"a": {"gt": 1.0}}`. Likewise, where `fmt.Sprint` prints `1e+21` for the `float64`
decoded from `1000000000000000000000`, the fragment is `a > 1e+21`. -/
theorem C9_counterexample :
    (∀ fmtFloat : ℚ → String,
      (processObj [("a", .obj [("gt", .num (.float 1))])]).map (Where.MySQL fmtFloat) =
        .ok ("a > " ++ fmtFloat 1))
    ∧ (¬ ∃ fmtFloat : ℚ → String,
      (processObj [("a", .obj [("gt", .num (.float 1))])]).map (Where.MySQL fmtFloat) =
        .ok "a > 1"
      ∧ (processObj [("a", .obj [("gt", .num (.float 1))])]).map (Where.MySQL fmtFloat) =
        .ok "a > 1.0")
    ∧ (∀ fmtFloat : ℚ → String, fmtFloat (10 ^ 21) = "1e+21" →
      (processObj [("a", .obj [("gt", .num (.float (10 ^ 21)))])]).map (Where.MySQL fmtFloat) =
        .ok "a > 1e+21"
      ∧ (processObj [("a", .obj [("gt", .num (.float (10 ^ 21)))])]).map (Where.MySQL fmtFloat) ≠
        .ok "a > 1000000000000000000000") := by
  have hout : ∀ (fmtFloat : ℚ → String) (q : ℚ),
      (processObj [("a", .obj [("gt", .num (.float q))])]).map (Where.MySQL fmtFloat) =
        .ok ("a > " ++ fmtFloat q) := fun _ _ => rfl
  refine ⟨fun fmtFloat => hout fmtFloat 1, ?_, ?_⟩
  · rintro ⟨fmtFloat, h1, h2⟩
    rw [h1] at h2
    exact absurd (Except.ok.inj h2) (by decide)
  · intro fmtFloat hfmt
    rw [hout, hfmt]
    exact ⟨rfl, fun h => absurd (Except.ok.inj h) (by decide)⟩

/-- C9, amended: for a property `p` and a one-key operator object `{op: v}`: with `NEQ`, `LT`, `LTE`, `GT`
or `GTE` (in any letter case) the parse of `{p: {op: v}}` succeeds if and only if `v` is a string, a
number or a boolean; with `LIKE` or `NLIKE` if and only if `v` is a string; otherwise it fails
with `notSupportType`. On success the serialization is `p`, a space, the SQL operator (`!=`, `<`,
`<=`, `>`, `>=`, `LIKE`, `NOT LIKE`), a space, and the literal: a string in single quotes, and for a
number or a boolean the text that `fmt.Sprint` prints for the decoded value, that is the decimal
form for a number of an integer kind, `true` or `false` for a boolean, and the library rendering
of the `float64` for a floating-point number (not the text the number was written with). -/
theorem C9_comparison (fmtFloat : ℚ → String) (p op : String) (v : Value)
    (hp : isPropertyKey p) :
    (ToUpper op ∈ ["NEQ", "LT", "LTE", "GT", "GTE"] →
      ((∃ t, processObj [(p, .obj [(op, v)])] = .ok t) ↔ v.isScalar = true)
      ∧ (v.isScalar = true →
          (processObj [(p, .obj [(op, v)])]).map (Where.MySQL fmtFloat) =
            .ok (p ++ " " ++ opText (ToUpper op) ++ " " ++ literal fmtFloat v))
      ∧ (v.isScalar = false → processObj [(p, .obj [(op, v)])] = .error notSupportType))
    ∧ (ToUpper op ∈ ["LIKE", "NLIKE"] →
      ((∃ t, processObj [(p, .obj [(op, v)])] = .ok t) ↔ v.isString = true)
      ∧ (v.isString = true →
          (processObj [(p, .obj [(op, v)])]).map (Where.MySQL fmtFloat) =
            .ok (p ++ " " ++ opText (ToUpper op) ++ " " ++ literal fmtFloat v))
      ∧ (v.isString = false → processObj [(p, .obj [(op, v)])] = .error notSupportType)) := by
  rw [processObj_operator p op v hp, primitiveCdtStd_one]
  constructor
  · intro hop
    simp only [List.mem_cons, List.mem_singleton, List.not_mem_nil, or_false] at hop
    rcases hop with h | h | h | h | h <;> rw [h] <;> cases v <;>
      simp [processNeq, processLt, processLte, processGt, processGte, Value.isScalar,
        Except.map, Where.MySQL, opText, literal_str, Sprint_str, Sprint_num, Sprint_bool,
        String.append_assoc]
  · intro hop
    simp only [List.mem_cons, List.mem_singleton, List.not_mem_nil, or_false] at hop
    rcases hop with h | h <;> rw [h] <;> cases v <;>
      simp [processLike, processNlike, Value.isString,
        Except.map, Where.MySQL, opText, literal_str, String.append_assoc]

theorem C9_comparison_witness :
    isPropertyKey "date" ∧ ToUpper "gt" ∈ ["NEQ", "LT", "LTE", "GT", "GTE"] ∧
    (Value.str "2014-04-01").isScalar = true ∧
    (processObj [("date", .obj [("gt", .str "2014-04-01")])]).map (Where.MySQL (fun _ => "")) =
      .ok ("date" ++ " " ++ opText (ToUpper "gt") ++ " " ++
        literal (fun _ => "") (.str "2014-04-01")) ∧
    (processObj [("date", .obj [("gt", .num (.int 30))])]).map (Where.MySQL (fun _ => "")) =
      .ok ("date" ++ " " ++ opText (ToUpper "gt") ++ " " ++
        literal (fun _ => "") (.num (.int 30))) ∧
    "date" ++ " " ++ opText (ToUpper "gt") ++ " " ++ literal (fun _ => "") (.num (.int 30)) =
      "date > 30" :=
  ⟨by decide, by decide, rfl,
    ((C9_comparison (fun _ => "") "date" "gt" (.str "2014-04-01") (by decide)).1
      (by decide)).2.1 rfl,
    ((C9_comparison (fun _ => "") "date" "gt" (.num (.int 30)) (by decide)).1
      (by decide)).2.1 rfl,
    by decide⟩

/-- C10: for a property `p` and a one-key object `{op: v}` whose key, upper-cased, is none of
`NEQ`, `LT`, `LTE`, `GT`, `GTE`, `LIKE`, `NLIKE`, `IN`, `NIN`, the parse of `{p: {op: v}}` fails with
`invalidKeyword`, whatever `v` is. -/
theorem C10_invalid_keyword (p op : String) (v : Value) (hp : isPropertyKey p)
    (hop : ToUpper op ∉ operatorKeys) :
    processObj [(p, .obj [(op, v)])] = .error invalidKeyword := by
  rw [processObj_operator p op v hp, primitiveCdtStd_one]
  simp only [operatorKeys, List.mem_cons, List.mem_singleton, List.not_mem_nil, or_false,
    not_or] at hop
  obtain ⟨h1, h2, h3, h4, h5, h6, h7, h8, h9⟩ := hop
  rw [if_neg h1, if_neg h2, if_neg h3, if_neg h4, if_neg h5, if_neg h6, if_neg h7, if_neg h8,
    if_neg h9]

theorem C10_invalid_keyword_witness :
    isPropertyKey "str" ∧ ToUpper "str" ∉ operatorKeys ∧
    processObj [("str", .obj [("str", .str "A")])] = .error invalidKeyword :=
  ⟨by decide, by decide, C10_invalid_keyword "str" "str" (.str "A") (by decide) (by decide)⟩

/-! ## Lemmas on the membership builders -/

theorem toDigitsCore_ne_nil (b : Nat) :
    ∀ (f n : Nat) (ds : List Char), ds ≠ [] → Nat.toDigitsCore b f n ds ≠ [] := by
  intro f
  induction f with
  | zero => intro n ds h; simpa [Nat.toDigitsCore] using h
  | succ f ih =>
    intro n ds h
    rw [Nat.toDigitsCore]
    split
    · simp
    · exact ih _ _ (by simp)

theorem toDigits_ne_nil (b n : Nat) : Nat.toDigits b n ≠ [] := by
  rw [Nat.toDigits, Nat.toDigitsCore]
  split
  · simp
  · exact toDigitsCore_ne_nil b _ _ _ (by simp)

theorem ne_empty_of_data (s : String) (h : s.data ≠ []) : s ≠ "" := by
  intro hs
  apply h
  rw [hs]

/-- The decimal form of an integer is not the empty text. -/
theorem int_toString_ne_empty (i : Int) : toString i ≠ "" := by
  cases i with
  | ofNat m =>
    apply ne_empty_of_data
    show (Nat.repr m).data ≠ []
    rw [Nat.repr]
    exact toDigits_ne_nil 10 m
  | negSucc m =>
    apply ne_empty_of_data
    show ("-" ++ Nat.repr (Nat.succ m)).data ≠ []
    rw [String.data_append]
    simp

/-- The text printed for the content of a scalar element is never empty, as long as the
rendering of floating-point numbers never is. -/
theorem Sprint_toScalar_ne_empty (fmtFloat : ℚ → String) (hfmt : ∀ q, fmtFloat q ≠ "")
    (v : Value) (hv : v.isScalar = true) : Sprint fmtFloat v.toScalar ≠ "" := by
  cases v with
  | str s =>
    apply ne_empty_of_data
    show ("'" ++ s ++ "'").data ≠ []
    rw [String.data_append, String.data_append]
    simp
  | num n =>
    cases n with
    | int i => exact int_toString_ne_empty i
    | float q => exact hfmt q
  | bool b => cases b <;> simp [Value.toScalar, Sprint]
  | null => cases hv
  | arr a => cases hv
  | obj m => cases hv

theorem Sprint_toScalar (fmtFloat : ℚ → String) (v : Value) :
    Sprint fmtFloat v.toScalar = literal fmtFloat v := by
  cases v with
  | num n =>
    cases n with
    | int i => exact toString_eq_decimal i
    | float q => rfl
  | bool b => cases b <;> rfl
  | _ => rfl

theorem detectDatatype_eq (arr : List Value) : detectDatatype arr = firstDatatype arr := by
  induction arr with
  | nil => rfl
  | cons v vs ih =>
    cases v <;> first | rfl | exact ih

theorem collectStrings_eq (arr : List Value) (values : List Scalar) :
    collectStrings arr values = values ++ (elementsOf "s" arr).map Value.toScalar := by
  induction arr generalizing values with
  | nil => simp [collectStrings, elementsOf]
  | cons v vs ih =>
    cases v <;> simp [collectStrings, elementsOf, Value.datatype, Value.toScalar, ih]

theorem collectNumbers_eq (arr : List Value) (values : List Scalar) :
    collectNumbers arr values = values ++ (elementsOf "n" arr).map Value.toScalar := by
  induction arr generalizing values with
  | nil => simp [collectNumbers, elementsOf]
  | cons v vs ih =>
    cases v <;> simp [collectNumbers, elementsOf, Value.datatype, Value.toScalar, ih]

theorem collectBools_eq (arr : List Value) (values : List Scalar) :
    collectBools arr values = values ++ (elementsOf "b" arr).map Value.toScalar := by
  induction arr generalizing values with
  | nil => simp [collectBools, elementsOf]
  | cons v vs ih =>
    cases v <;> simp [collectBools, elementsOf, Value.datatype, Value.toScalar, ih]

theorem append_ne_empty (s x : String) (h : s ≠ "") : s ++ x ≠ "" := by
  apply ne_empty_of_data
  rw [String.data_append]
  intro hnil
  apply h
  have hs : s.data = [] := (List.append_eq_nil.mp hnil).1
  exact String.ext hs

theorem valuesLoop_of_ne_empty (fmtFloat : ℚ → String) (values : List Scalar) (str : String)
    (hstr : str ≠ "") :
    valuesLoop fmtFloat values str =
      String.intercalate.go str ", " (values.map (Sprint fmtFloat)) := by
  induction values generalizing str with
  | nil => rfl
  | cons v vs ih =>
    rw [valuesLoop, if_neg hstr, ih _ (append_ne_empty _ _ (append_ne_empty _ _ hstr))]
    rfl

/-- The loop of `inCdt.MySQL` joins the printed values with a comma and a space, when the first
value is not printed as the empty text. -/
theorem valuesLoop_empty (fmtFloat : ℚ → String) (values : List Scalar)
    (h : ∀ v ∈ values, Sprint fmtFloat v ≠ "") :
    valuesLoop fmtFloat values "" = ", ".intercalate (values.map (Sprint fmtFloat)) := by
  cases values with
  | nil => rfl
  | cons v vs =>
    rw [valuesLoop, if_pos rfl, valuesLoop_of_ne_empty _ _ _ (h v (List.mem_cons_self v vs))]
    rfl

theorem firstDatatype_tag (arr : List Value) (d : String) (h : firstDatatype arr = some d) :
    d = "s" ∨ d = "n" ∨ d = "b" := by
  induction arr with
  | nil => cases h
  | cons v vs ih =>
    cases v with
    | str s => exact Or.inl (Option.some.inj h).symm
    | num n => exact Or.inr (Or.inl (Option.some.inj h).symm)
    | bool b => exact Or.inr (Or.inr (Option.some.inj h).symm)
    | null => exact ih h
    | arr a => exact ih h
    | obj m => exact ih h

theorem firstDatatype_of_scalar (arr : List Value) (h : ∃ v ∈ arr, v.isScalar = true) :
    ∃ d, firstDatatype arr = some d := by
  induction arr with
  | nil => obtain ⟨v, hv, _⟩ := h; exact absurd hv (List.not_mem_nil v)
  | cons v vs ih =>
    cases v with
    | str s => exact ⟨_, rfl⟩
    | num n => exact ⟨_, rfl⟩
    | bool b => exact ⟨_, rfl⟩
    | null =>
      obtain ⟨w, hw, hs⟩ := h
      rcases List.mem_cons.mp hw with rfl | hw
      · cases hs
      · exact ih ⟨w, hw, hs⟩
    | arr a =>
      obtain ⟨w, hw, hs⟩ := h
      rcases List.mem_cons.mp hw with rfl | hw
      · cases hs
      · exact ih ⟨w, hw, hs⟩
    | obj m =>
      obtain ⟨w, hw, hs⟩ := h
      rcases List.mem_cons.mp hw with rfl | hw
      · cases hs
      · exact ih ⟨w, hw, hs⟩

theorem firstDatatype_none (arr : List Value) (h : ∀ v ∈ arr, v.isScalar = false) :
    firstDatatype arr = none := by
  induction arr with
  | nil => rfl
  | cons v vs ih =>
    have hv := h v (List.mem_cons_self v vs)
    have hvs := ih (fun w hw => h w (List.mem_cons_of_mem v hw))
    cases v with
    | str s => cases hv
    | num n => cases hv
    | bool b => cases hv
    | null => exact hvs
    | arr a => exact hvs
    | obj m => exact hvs

/-- What `processIn` returns on an array with a string, number or boolean element. -/
theorem processIn_ok (key : String) (arr : List Value) (d : String)
    (h : firstDatatype arr = some d) :
    processIn key (.arr arr) = .ok (.inCdt key d ((elementsOf d arr).map Value.toScalar)) := by
  have hlen : ¬ arr.length = 0 := by
    cases arr with
    | nil => cases h
    | cons v vs => simp
  have hns : ¬ ("n" : String) = "s" := by decide
  have hbs : ¬ ("b" : String) = "s" := by decide
  have hbn : ¬ ("b" : String) = "n" := by decide
  rw [processIn]
  simp only [if_neg hlen, detectDatatype_eq, h]
  rcases firstDatatype_tag arr d h with rfl | rfl | rfl
  · rw [if_pos rfl, collectStrings_eq, List.nil_append]
  · rw [if_neg hns, if_pos rfl, collectNumbers_eq, List.nil_append]
  · rw [if_neg hbs, if_neg hbn, collectBools_eq, List.nil_append]

theorem elementsOf_isScalar (d : String) (arr : List Value) :
    ∀ v ∈ elementsOf d arr, v.isScalar = true := by
  intro v hv
  have hd : v.datatype = some d := by
    simpa using (List.mem_filter.mp hv).2
  cases v with
  | str s => rfl
  | num n => rfl
  | bool b => rfl
  | null => cases hd
  | arr a => cases hd
  | obj m => cases hd

/-- The value list printed by `inCdt.MySQL` and `ninCdt.MySQL` for the content that `processIn`
stores. -/
theorem valuesLoop_elementsOf (fmtFloat : ℚ → String) (hfmt : ∀ q, fmtFloat q ≠ "")
    (d : String) (arr : List Value) :
    valuesLoop fmtFloat ((elementsOf d arr).map Value.toScalar) "" =
      membershipList fmtFloat d arr := by
  rw [valuesLoop_empty, membershipList, List.map_map]
  · congr 1
    apply List.map_congr_left
    intro v _
    exact Sprint_toScalar fmtFloat v
  · intro s hs
    obtain ⟨v, hv, rfl⟩ := List.mem_map.mp hs
    exact Sprint_toScalar_ne_empty fmtFloat hfmt v (elementsOf_isScalar d arr v hv)

theorem processIn_not_array (key : String) (v : Value) (hv : v.isArray = false) :
    processIn key v = .error notAnArray := by
  cases v <;> first | rfl | cases hv

theorem processIn_no_scalar (key : String) (arr : List Value)
    (h : ∀ v ∈ arr, v.isScalar = false) : processIn key (.arr arr) = .error emptyArray := by
  rw [processIn]
  split
  · rfl
  · rw [detectDatatype_eq, firstDatatype_none arr h]

theorem primitiveCdtStd_in (key op : String) (val : Value) (hop : ToUpper op = "IN") :
    primitiveCdtStd key [(op, val)] = processIn key val := by
  rw [primitiveCdtStd_one, hop]
  simp

theorem primitiveCdtStd_nin (key op : String) (val : Value) (hop : ToUpper op = "NIN") :
    primitiveCdtStd key [(op, val)] = processNin key val := by
  rw [primitiveCdtStd_one, hop]
  simp

/-! ## Claims on the membership operators -/

/-- C11 fails as stated for numbers. `encoding/json` decodes the JSON numbers `1` and `1.0` to the
same `float64`, and the fragment is computed from the decoded value: for every rendering of floats
it is `a IN (...)` around the one text printed for that value, so it is not the verbatim text of
both `{"a": {"in": [1]}}` and `{"a": {"in": [1.0]}}`. Likewise, where `fmt.Sprint` prints `1e+21` for the
`float64` decoded from `1000000000000000000000`, the fragment is `a IN (1e+21)`. -/
theorem C11_counterexample :
    (∀ fmtFloat : ℚ → String,
      (processObj [("a", .obj [("in", .arr [.num (.float 1)])])]).map (Where.MySQL fmtFloat) =
        .ok ("a IN (" ++ fmtFloat 1 ++ ")"))
    ∧ (¬ ∃ fmtFloat : ℚ → String,
      (processObj [("a", .obj [("in", .arr [.num (.float 1)])])]).map (Where.MySQL fmtFloat) =
        .ok "a IN (1)"
      ∧ (processObj [("a", .obj [("in", .arr [.num (.float 1)])])]).map (Where.MySQL fmtFloat) =
        .ok "a IN (1.0)")
    ∧ (∀ fmtFloat : ℚ → String, fmtFloat (10 ^ 21) = "1e+21" →
      (processObj [("a", .obj [("in", .arr [.num (.float (10 ^ 21))])])]).map
          (Where.MySQL fmtFloat) = .ok "a IN (1e+21)"
      ∧ (processObj [("a", .obj [("in", .arr [.num (.float (10 ^ 21))])])]).map
          (Where.MySQL fmtFloat) ≠ .ok "a IN (1000000000000000000000)") := by
  have hout : ∀ (fmtFloat : ℚ → String) (q : ℚ),
      (processObj [("a", .obj [("in", .arr [.num (.float q)])])]).map (Where.MySQL fmtFloat) =
        .ok ("a IN (" ++ fmtFloat q ++ ")") := fun _ _ => rfl
  refine ⟨fun fmtFloat => hout fmtFloat 1, ?_, ?_⟩
  · rintro ⟨fmtFloat, h1, h2⟩
    rw [h1] at h2
    exact absurd (Except.ok.inj h2) (by decide)
  · intro fmtFloat hfmt
    rw [hout, hfmt]
    exact ⟨rfl, fun h => absurd (Except.ok.inj h) (by decide)⟩

/-- C11, amended: for a property `p` and an array with at least one string, number or boolean
element, let `d` be the datatype of the first such element in array order. The parse of
`{p: {"in": arr}}` succeeds and serializes to `p IN (...)`, the list being the elements of `arr` of
datatype `d` in their original order, joined by a comma and a space: a string in single quotes,
and a number or a boolean as `fmt.Sprint` prints the decoded value, that is the decimal form for
a number of an integer kind, `true` or `false` for a boolean, and the library rendering of the
`float64` for a floating-point number (not the text the number was written with). The elements
of another type are dropped without error. With `nin` the operator text is `NOT IN`. The rendering
of a floating-point number is taken to be non-empty, as `fmt.Sprint` guarantees. -/
theorem C11_membership (fmtFloat : ℚ → String) (hfmt : ∀ q, fmtFloat q ≠ "") (p op : String)
    (arr : List Value) (hp : isPropertyKey p) (h : ∃ v ∈ arr, v.isScalar = true) :
    ∃ d, firstDatatype arr = some d
      ∧ (ToUpper op = "IN" →
          (processObj [(p, .obj [(op, .arr arr)])]).map (Where.MySQL fmtFloat) =
            .ok (p ++ " IN (" ++ membershipList fmtFloat d arr ++ ")"))
      ∧ (ToUpper op = "NIN" →
          (processObj [(p, .obj [(op, .arr arr)])]).map (Where.MySQL fmtFloat) =
            .ok (p ++ " NOT IN (" ++ membershipList fmtFloat d arr ++ ")")) := by
  obtain ⟨d, hd⟩ := firstDatatype_of_scalar arr h
  refine ⟨d, hd, ?_, ?_⟩
  · intro hop
    rw [processObj_operator p op _ hp, primitiveCdtStd_in p op _ hop, processIn_ok p arr d hd]
    simp only [Except.map]
    rw [Where.MySQL.eq_def]
    simp only [valuesLoop_elementsOf fmtFloat hfmt d arr]
  · intro hop
    rw [processObj_operator p op _ hp, primitiveCdtStd_nin p op _ hop, processNin,
      processIn_ok p arr d hd]
    simp only [Except.map]
    rw [Where.MySQL.eq_def]
    simp only [valuesLoop_elementsOf fmtFloat hfmt d arr]

theorem C11_membership_witness :
    (∀ q : ℚ, (fun _ : ℚ => "0") q ≠ "") ∧ isPropertyKey "str" ∧
    (∃ v ∈ [Value.str "A", .str "B", .num (.float 1), .bool true], v.isScalar = true) ∧
    (∃ d, firstDatatype [Value.str "A", .str "B", .num (.float 1), .bool true] = some d
      ∧ (ToUpper "in" = "IN" →
          (processObj [("str", .obj [("in",
              .arr [.str "A", .str "B", .num (.float 1), .bool true])])]).map
            (Where.MySQL (fun _ => "0")) =
            .ok ("str" ++ " IN (" ++ membershipList (fun _ => "0") d
              [.str "A", .str "B", .num (.float 1), .bool true] ++ ")"))
      ∧ (ToUpper "in" = "NIN" →
          (processObj [("str", .obj [("in",
              .arr [.str "A", .str "B", .num (.float 1), .bool true])])]).map
            (Where.MySQL (fun _ => "0")) =
            .ok ("str" ++ " NOT IN (" ++ membershipList (fun _ => "0") d
              [.str "A", .str "B", .num (.float 1), .bool true] ++ ")"))) ∧
    (processObj [("str", .obj [("in",
        .arr [.str "A", .str "B", .num (.float 1), .bool true])])]).map
      (Where.MySQL (fun _ => "0")) = .ok "str IN ('A', 'B')" ∧
    membershipList (fun _ => "0") "s" [.str "A", .str "B", .num (.float 1), .bool true] =
      "'A', 'B'" ∧
    membershipList (fun _ => "0") "n" [.num (.int 7), .str "x", .num (.int (-20))] = "7, -20" :=
  ⟨fun _ => (by decide : ("0" : String) ≠ ""), by decide, ⟨.str "A", by simp, rfl⟩,
    C11_membership (fun _ => "0") (fun _ => (by decide : ("0" : String) ≠ "")) "str" "in"
      [.str "A", .str "B", .num (.float 1), .bool true] (by decide) ⟨.str "A", by simp, rfl⟩,
    rfl, by decide, by decide⟩

/-- C12: for a property `p` and the operator key `IN` or `NIN` in any letter case: a value that is
not an array fails with `notAnArray`; an empty array fails with `emptyArray`; a non-empty array
none of whose elements is a string, a number or a boolean fails with `emptyArray`. -/
theorem C12_membership_errors (p op : String) (hp : isPropertyKey p)
    (hop : ToUpper op = "IN" ∨ ToUpper op = "NIN") :
    (∀ v : Value, v.isArray = false → processObj [(p, .obj [(op, v)])] = .error notAnArray)
    ∧ processObj [(p, .obj [(op, .arr [])])] = .error emptyArray
    ∧ (∀ arr : List Value, arr ≠ [] → (∀ v ∈ arr, v.isScalar = false) →
        processObj [(p, .obj [(op, .arr arr)])] = .error emptyArray) := by
  refine ⟨?_, ?_, ?_⟩
  · intro v hv
    rcases hop with hop | hop
    · rw [processObj_operator p op _ hp, primitiveCdtStd_in p op _ hop,
        processIn_not_array p v hv]
    · rw [processObj_operator p op _ hp, primitiveCdtStd_nin p op _ hop, processNin,
        processIn_not_array p v hv]
  · rcases hop with hop | hop
    · rw [processObj_operator p op _ hp, primitiveCdtStd_in p op _ hop]
      rfl
    · rw [processObj_operator p op _ hp, primitiveCdtStd_nin p op _ hop]
      rfl
  · intro arr _ hno
    rcases hop with hop | hop
    · rw [processObj_operator p op _ hp, primitiveCdtStd_in p op _ hop,
        processIn_no_scalar p arr hno]
    · rw [processObj_operator p op _ hp, primitiveCdtStd_nin p op _ hop, processNin,
        processIn_no_scalar p arr hno]

theorem C12_membership_errors_witness :
    isPropertyKey "str" ∧ (ToUpper "in" = "IN" ∨ ToUpper "in" = "NIN") ∧
    processObj [("str", .obj [("in", .str "A")])] = .error notAnArray ∧
    processObj [("str", .obj [("in", .arr [])])] = .error emptyArray ∧
    processObj [("str", .obj [("in", .arr [.null, .arr [], .obj []])])] = .error emptyArray :=
  ⟨by decide, by decide,
    (C12_membership_errors "str" "in" (by decide) (by decide)).1 (.str "A") rfl,
    (C12_membership_errors "str" "in" (by decide) (by decide)).2.1,
    (C12_membership_errors "str" "in" (by decide) (by decide)).2.2 [.null, .arr [], .obj []]
      (by simp) (by simp [Value.isScalar])⟩

/-! ## Claims on the combination helpers -/

theorem andArgs_eq (ws children : List Where) :
    andArgs ws children = children ++ ws.flatMap expandAnd := by
  induction ws generalizing children with
  | nil => simp [andArgs]
  | cons w ws ih =>
    cases w <;> simp [andArgs, expandAnd, ih, List.flatMap_cons]

theorem orArgs_eq (ws children : List Where) :
    orArgs ws children = children ++ ws.flatMap expandOr := by
  induction ws generalizing children with
  | nil => simp [orArgs]
  | cons w ws ih =>
    cases w <;> simp [orArgs, expandOr, ih, List.flatMap_cons]

/-- The children of the node that `And` and `Or` store. -/
theorem and_or_children (f : Filter) (ws : List Where) :
    (f.And ws).Where =
        some (.andCdt ((match f.Where with
          | none => []
          | some W => expandAnd W) ++ ws.flatMap expandAnd))
    ∧ (f.Or ws).Where =
        some (.orCdt ((match f.Where with
          | none => []
          | some W => expandOr W) ++ ws.flatMap expandOr)) := by
  obtain ⟨w, o, l, s, e⟩ := f
  constructor
  · cases w with
    | none => simp [Filter.And, andArgs_eq]
    | some W => cases W <;> simp [Filter.And, andArgs_eq, expandAnd]
  · cases w with
    | none => simp [Filter.Or, orArgs_eq]
    | some W => cases W <;> simp [Filter.Or, orArgs_eq, expandOr]

/-- C13: for every `Filter` state with `Where = W` and every list of trees `w1, ..., wn`, `And`
replaces `Where` by an `AND` node whose children are `exp(W)` followed by `exp(w1), ..., exp(wn)` in
order, where `exp` of an `AND` node is its list of children, `exp` of a null `W` is the empty list
and `exp` of any other node is that node alone; `Or` does the same with `OR` for `AND`. -/
theorem C13_and_or_children (f : Filter) (ws : List Where) :
    (f.And ws).Where =
        some (.andCdt ((match f.Where with
          | none => []
          | some W => expandAnd W) ++ ws.flatMap expandAnd))
    ∧ (f.Or ws).Where =
        some (.orCdt ((match f.Where with
          | none => []
          | some W => expandOr W) ++ ws.flatMap expandOr)) := by
  obtain ⟨w, o, l, s, e⟩ := f
  constructor
  · cases w with
    | none => simp [Filter.And, andArgs_eq]
    | some W => cases W <;> simp [Filter.And, andArgs_eq, expandAnd]
  · cases w with
    | none => simp [Filter.Or, orArgs_eq]
    | some W => cases W <;> simp [Filter.Or, orArgs_eq, expandOr]

/-- C14 fails as stated: `BuildWhere` on `{"and": [{"and": [{"a": 1}]}]}` stores an `AND` node whose
child is an `AND` node, and `And` with the parsed clause `{"b": 2}` keeps that child. -/
theorem C14_counterexample :
    (New.BuildWhere (.obj [("and", .arr [.obj [("and", .arr [.obj [("a", .num (.int 1))]])]])])).Where
      = some (.andCdt [.andCdt [.eqCdt "a" (.num (.int 1))]])
    ∧ processObj [("b", .num (.int 2))] = .ok (.eqCdt "b" (.num (.int 2)))
    ∧ ((New.BuildWhere (.obj [("and", .arr [.obj [("and", .arr [.obj [("a", .num (.int 1))]])]])])).And
        [.eqCdt "b" (.num (.int 2))]).Where
      = some (.andCdt [.andCdt [.eqCdt "a" (.num (.int 1))], .eqCdt "b" (.num (.int 2))])
    ∧ (Where.andCdt [.eqCdt "a" (.num (.int 1))]).isAnd = true :=
  ⟨rfl, rfl, rfl, rfl⟩

/-- C14, amended: `And` splices one level. After `And(clauses)` no child of the resulting `AND` node
is itself an `AND` node if and only if no `AND` node among `Where` and the clauses has an `AND` node
among its own children; likewise for `Or` and `OR` nodes. -/
theorem C14_one_level_flat (f : Filter) (ws : List Where) :
    ((∀ cs, (f.And ws).Where = some (.andCdt cs) → ∀ c ∈ cs, c.isAnd = false) ↔
      ((∀ W, f.Where = some W → ∀ c ∈ expandAnd W, c.isAnd = false) ∧
        ∀ w ∈ ws, ∀ c ∈ expandAnd w, c.isAnd = false))
    ∧ ((∀ cs, (f.Or ws).Where = some (.orCdt cs) → ∀ c ∈ cs, c.isOr = false) ↔
      ((∀ W, f.Where = some W → ∀ c ∈ expandOr W, c.isOr = false) ∧
        ∀ w ∈ ws, ∀ c ∈ expandOr w, c.isOr = false)) := by
  obtain ⟨hand, hor⟩ := and_or_children f ws
  constructor
  · rw [hand]
    constructor
    · intro h
      have h1 := h _ rfl
      constructor
      · intro W hW c hc
        apply h1
        rw [hW]
        exact List.mem_append_left _ hc
      · intro w hw c hc
        apply h1
        exact List.mem_append_right _ (List.mem_flatMap.mpr ⟨w, hw, hc⟩)
    · rintro ⟨hW, hws⟩ cs hcs c hc
      have hcs1 := Where.andCdt.inj (Option.some.inj hcs)
      rw [← hcs1] at hc
      rcases List.mem_append.mp hc with hc | hc
      · cases hfw : f.Where with
        | none => rw [hfw] at hc; exact absurd hc (List.not_mem_nil c)
        | some W => rw [hfw] at hc; exact hW W hfw c hc
      · obtain ⟨w, hw, hcw⟩ := List.mem_flatMap.mp hc
        exact hws w hw c hcw
  · rw [hor]
    constructor
    · intro h
      have h1 := h _ rfl
      constructor
      · intro W hW c hc
        apply h1
        rw [hW]
        exact List.mem_append_left _ hc
      · intro w hw c hc
        apply h1
        exact List.mem_append_right _ (List.mem_flatMap.mpr ⟨w, hw, hc⟩)
    · rintro ⟨hW, hws⟩ cs hcs c hc
      have hcs1 := Where.orCdt.inj (Option.some.inj hcs)
      rw [← hcs1] at hc
      rcases List.mem_append.mp hc with hc | hc
      · cases hfw : f.Where with
        | none => rw [hfw] at hc; exact absurd hc (List.not_mem_nil c)
        | some W => rw [hfw] at hc; exact hW W hfw c hc
      · obtain ⟨w, hw, hcw⟩ := List.mem_flatMap.mp hc
        exact hws w hw c hcw

theorem C14_one_level_flat_witness :
    ((∀ W, (New.BuildWhere (.obj [("and", .arr [.obj [("a", .num (.int 1))]])])).Where = some W →
        ∀ c ∈ expandAnd W, c.isAnd = false) ∧
      ∀ w ∈ [Where.eqCdt "b" (.num (.int 2))], ∀ c ∈ expandAnd w, c.isAnd = false)
    ∧ ∀ cs, ((New.BuildWhere (.obj [("and", .arr [.obj [("a", .num (.int 1))]])])).And
        [.eqCdt "b" (.num (.int 2))]).Where = some (.andCdt cs) → ∀ c ∈ cs, c.isAnd = false := by
  have hin : (∀ W, (New.BuildWhere (.obj [("and", .arr [.obj [("a", .num (.int 1))]])])).Where
        = some W → ∀ c ∈ expandAnd W, c.isAnd = false) ∧
      ∀ w ∈ [Where.eqCdt "b" (.num (.int 2))], ∀ c ∈ expandAnd w, c.isAnd = false := by
    constructor
    · intro W hW c hc
      have hW1 : W = .andCdt [.eqCdt "a" (.num (.int 1))] := (Option.some.inj hW).symm
      rw [hW1] at hc
      rw [List.mem_singleton.mp hc]
      rfl
    · intro w hw c hc
      rw [List.mem_singleton.mp hw] at hc
      rw [List.mem_singleton.mp hc]
      rfl
  exact ⟨hin, (C14_one_level_flat
    (New.BuildWhere (.obj [("and", .arr [.obj [("a", .num (.int 1))]])]))
    [.eqCdt "b" (.num (.int 2))]).1.mpr hin⟩

/-! ## Lemmas on the builders: the field built, the error slot, the other fields -/

theorem BuildWhere_Where (f : Filter) (v : Value) :
    (f.BuildWhere v).Where =
      match v with
      | .obj m => (processObj m).toOption
      | _ => none := by
  cases v with
  | obj m =>
    simp only [Filter.BuildWhere]
    cases processObj m <;> rfl
  | _ => rfl

theorem BuildWhere_err (f : Filter) (v : Value) :
    (f.BuildWhere v).err = (whereError v).or f.err := by
  cases v with
  | obj m =>
    simp only [Filter.BuildWhere, whereError]
    cases processObj m <;> rfl
  | _ => rfl

theorem BuildWhere_frame (f : Filter) (v : Value) :
    (f.BuildWhere v).Order = f.Order ∧ (f.BuildWhere v).Limit = f.Limit ∧
      (f.BuildWhere v).Skip = f.Skip := by
  cases v with
  | obj m =>
    simp only [Filter.BuildWhere]
    cases processObj m <;> exact ⟨rfl, rfl, rfl⟩
  | _ => exact ⟨rfl, rfl, rfl⟩

theorem processOrder_some (l : List String) (arr : List Value) :
    processOrder (some l) arr = .ok (some (l ++ stringsOf arr)) := by
  induction arr generalizing l with
  | nil => simp [processOrder, stringsOf]
  | cons v vs ih =>
    cases v <;> simp [processOrder, stringsOf, Order.append, ih]

theorem processOrder_none (arr : List Value) :
    processOrder none arr = .ok (if stringsOf arr = [] then none else some (stringsOf arr)) := by
  induction arr with
  | nil => rfl
  | cons v vs ih =>
    cases v <;> simp [processOrder, stringsOf, Order.append, ih, processOrder_some]

theorem BuildOrder_Order (f : Filter) (v : Value) :
    (f.BuildOrder v).Order =
      match v with
      | .str s => some [s]
      | .arr arr => if stringsOf arr = [] then none else some (stringsOf arr)
      | _ => none := by
  cases v with
  | str s => rfl
  | arr a =>
    simp only [Filter.BuildOrder, processOrder_none]
    by_cases h : stringsOf a = []
    · simp [h, Order.len]
    · cases hs : stringsOf a with
      | nil => exact absurd hs h
      | cons x xs => simp [Order.len]
  | _ => rfl

theorem BuildOrder_err (f : Filter) (v : Value) :
    (f.BuildOrder v).err = (orderError v).or f.err := by
  cases v with
  | arr a =>
    simp only [Filter.BuildOrder, processOrder_none, orderError]
    split <;> first | rfl | (split <;> rfl)
  | _ => rfl

theorem BuildOrder_frame (f : Filter) (v : Value) :
    (f.BuildOrder v).Where = f.Where ∧ (f.BuildOrder v).Limit = f.Limit ∧
      (f.BuildOrder v).Skip = f.Skip := by
  cases v with
  | arr a =>
    simp only [Filter.BuildOrder, processOrder_none]
    split <;> first | exact ⟨rfl, rfl, rfl⟩ | (split <;> exact ⟨rfl, rfl, rfl⟩)
  | _ => exact ⟨rfl, rfl, rfl⟩

theorem BuildLimit_Limit (f : Filter) (v : Value) :
    (f.BuildLimit v).Limit =
      match v with
      | .num x => some (toInt64 x)
      | _ => none := by
  cases v <;> rfl

theorem BuildLimit_err (f : Filter) (v : Value) :
    (f.BuildLimit v).err = (numberError v).or f.err := by
  cases v <;> rfl

theorem BuildLimit_frame (f : Filter) (v : Value) :
    (f.BuildLimit v).Where = f.Where ∧ (f.BuildLimit v).Order = f.Order ∧
      (f.BuildLimit v).Skip = f.Skip := by
  cases v <;> exact ⟨rfl, rfl, rfl⟩

theorem BuildSkip_Skip (f : Filter) (v : Value) :
    (f.BuildSkip v).Skip =
      match v with
      | .num x => some (toInt64 x)
      | _ => none := by
  cases v <;> rfl

theorem BuildSkip_err (f : Filter) (v : Value) :
    (f.BuildSkip v).err = (numberError v).or f.err := by
  cases v <;> rfl

theorem BuildSkip_frame (f : Filter) (v : Value) :
    (f.BuildSkip v).Where = f.Where ∧ (f.BuildSkip v).Order = f.Order ∧
      (f.BuildSkip v).Limit = f.Limit := by
  cases v <;> exact ⟨rfl, rfl, rfl⟩

theorem BuildWhere_Order (f : Filter) (v : Value) : (f.BuildWhere v).Order = f.Order :=
  (BuildWhere_frame f v).1

theorem BuildWhere_Limit (f : Filter) (v : Value) : (f.BuildWhere v).Limit = f.Limit :=
  (BuildWhere_frame f v).2.1

theorem BuildWhere_Skip (f : Filter) (v : Value) : (f.BuildWhere v).Skip = f.Skip :=
  (BuildWhere_frame f v).2.2

theorem BuildOrder_Where (f : Filter) (v : Value) : (f.BuildOrder v).Where = f.Where :=
  (BuildOrder_frame f v).1

theorem BuildOrder_Limit (f : Filter) (v : Value) : (f.BuildOrder v).Limit = f.Limit :=
  (BuildOrder_frame f v).2.1

theorem BuildOrder_Skip (f : Filter) (v : Value) : (f.BuildOrder v).Skip = f.Skip :=
  (BuildOrder_frame f v).2.2

theorem BuildLimit_Where (f : Filter) (v : Value) : (f.BuildLimit v).Where = f.Where :=
  (BuildLimit_frame f v).1

theorem BuildLimit_Order (f : Filter) (v : Value) : (f.BuildLimit v).Order = f.Order :=
  (BuildLimit_frame f v).2.1

theorem BuildLimit_Skip (f : Filter) (v : Value) : (f.BuildLimit v).Skip = f.Skip :=
  (BuildLimit_frame f v).2.2

theorem BuildSkip_Where (f : Filter) (v : Value) : (f.BuildSkip v).Where = f.Where :=
  (BuildSkip_frame f v).1

theorem BuildSkip_Order (f : Filter) (v : Value) : (f.BuildSkip v).Order = f.Order :=
  (BuildSkip_frame f v).2.1

theorem BuildSkip_Limit (f : Filter) (v : Value) : (f.BuildSkip v).Limit = f.Limit :=
  (BuildSkip_frame f v).2.2

/-- The four steps of `Build`, one per key. -/
theorem Build_steps (f : Filter) (obj : List (String × Value)) :
    f.Build obj =
      let f1 := match obj.lookup "where" with
        | some val => f.BuildWhere val
        | none => f
      let f2 := match obj.lookup "order" with
        | some val => f1.BuildOrder val
        | none => f1
      let f3 := match obj.lookup "limit" with
        | some val => f2.BuildLimit val
        | none => f2
      match obj.lookup "skip" with
      | some val => f3.BuildSkip val
      | none => f3 := rfl

/-! ## Claims on the builders -/

/-- C15: after `Build(obj)`, from any prior state, each of the fields `Where`, `Order`, `Limit`, `Skip`
is what the single call `BuildWhere`, `BuildOrder`, `BuildLimit`, `BuildSkip` gives on the value under
its own key (`where`, `order`, `limit`, `skip`) when the key is present, whatever the state the
single call starts from and so whatever the other keys hold, and is the prior value when the key
is absent. -/
theorem C15_build_fields (f : Filter) (obj : List (String × Value)) :
    (∀ v, obj.lookup "where" = some v → ∀ g : Filter, (f.Build obj).Where = (g.BuildWhere v).Where)
    ∧ (obj.lookup "where" = none → (f.Build obj).Where = f.Where)
    ∧ (∀ v, obj.lookup "order" = some v →
        ∀ g : Filter, (f.Build obj).Order = (g.BuildOrder v).Order)
    ∧ (obj.lookup "order" = none → (f.Build obj).Order = f.Order)
    ∧ (∀ v, obj.lookup "limit" = some v →
        ∀ g : Filter, (f.Build obj).Limit = (g.BuildLimit v).Limit)
    ∧ (obj.lookup "limit" = none → (f.Build obj).Limit = f.Limit)
    ∧ (∀ v, obj.lookup "skip" = some v → ∀ g : Filter, (f.Build obj).Skip = (g.BuildSkip v).Skip)
    ∧ (obj.lookup "skip" = none → (f.Build obj).Skip = f.Skip) := by
  rw [Build_steps]
  refine ⟨?_, ?_, ?_, ?_, ?_, ?_, ?_, ?_⟩
  · intro v hv g
    rw [hv]
    cases obj.lookup "order" <;> cases obj.lookup "limit" <;> cases obj.lookup "skip" <;>
      simp only [BuildSkip_Where, BuildLimit_Where, BuildOrder_Where, BuildWhere_Where]
  · intro hv
    rw [hv]
    cases obj.lookup "order" <;> cases obj.lookup "limit" <;> cases obj.lookup "skip" <;>
      simp only [BuildSkip_Where, BuildLimit_Where, BuildOrder_Where]
  · intro v hv g
    rw [hv]
    cases obj.lookup "where" <;> cases obj.lookup "limit" <;> cases obj.lookup "skip" <;>
      simp only [BuildSkip_Order, BuildLimit_Order, BuildOrder_Order]
  · intro hv
    rw [hv]
    cases obj.lookup "where" <;> cases obj.lookup "limit" <;> cases obj.lookup "skip" <;>
      simp only [BuildSkip_Order, BuildLimit_Order, BuildWhere_Order]
  · intro v hv g
    rw [hv]
    cases obj.lookup "where" <;> cases obj.lookup "order" <;> cases obj.lookup "skip" <;>
      simp only [BuildSkip_Limit, BuildLimit_Limit]
  · intro hv
    rw [hv]
    cases obj.lookup "where" <;> cases obj.lookup "order" <;> cases obj.lookup "skip" <;>
      simp only [BuildSkip_Limit, BuildOrder_Limit, BuildWhere_Limit]
  · intro v hv g
    rw [hv]
    simp only [BuildSkip_Skip]
  · intro hv
    rw [hv]
    cases obj.lookup "where" <;> cases obj.lookup "order" <;> cases obj.lookup "limit" <;>
      simp only [BuildLimit_Skip, BuildOrder_Skip, BuildWhere_Skip]

theorem C15_build_fields_witness :
    List.lookup "limit" [("where", Value.str "x"), ("limit", Value.num (.float 5))] =
      some (.num (.float 5))
    ∧ ((New.BuildOrder (.str "a desc")).Build
        [("where", .str "x"), ("limit", .num (.float 5))]).Limit =
      (New.BuildLimit (.num (.float 5))).Limit
    ∧ List.lookup "order" [("where", Value.str "x"), ("limit", Value.num (.float 5))] = none
    ∧ ((New.BuildOrder (.str "a desc")).Build
        [("where", .str "x"), ("limit", .num (.float 5))]).Order =
      (New.BuildOrder (.str "a desc")).Order :=
  ⟨rfl,
    (C15_build_fields (New.BuildOrder (.str "a desc"))
      [("where", .str "x"), ("limit", .num (.float 5))]).2.2.2.2.1 _ rfl New,
    rfl,
    (C15_build_fields (New.BuildOrder (.str "a desc"))
      [("where", .str "x"), ("limit", .num (.float 5))]).2.2.2.1 rfl⟩

/-- C16: for each of `BuildWhere`, `BuildOrder`, `BuildLimit`, `BuildSkip`, from every prior state
(also one where the field holds a value) and for every input that the builder rejects, the
field is null after the call and the error is recorded, so that the next `Error()` returns it;
an input of the wrong top-level type (not a mapping for where, neither a string nor a list for
order, not a number for limit and skip) records `invalidFilter`. -/
theorem C16_rejected_input (f : Filter) (v : Value) :
    (∀ e, whereError v = some e →
      (f.BuildWhere v).Where = none ∧ (f.BuildWhere v).err = some e ∧
      (f.BuildWhere v).Error.1 = some e)
    ∧ (∀ e, orderError v = some e →
      (f.BuildOrder v).Order = none ∧ (f.BuildOrder v).err = some e ∧
      (f.BuildOrder v).Error.1 = some e)
    ∧ (∀ e, numberError v = some e →
      (f.BuildLimit v).Limit = none ∧ (f.BuildLimit v).err = some e ∧
      (f.BuildLimit v).Error.1 = some e)
    ∧ (∀ e, numberError v = some e →
      (f.BuildSkip v).Skip = none ∧ (f.BuildSkip v).err = some e ∧
      (f.BuildSkip v).Error.1 = some e)
    ∧ (v.isObject = false →
      (f.BuildWhere v).Where = none ∧ (f.BuildWhere v).err = some invalidFilter)
    ∧ (v.isString = false ∧ v.isArray = false →
      (f.BuildOrder v).Order = none ∧ (f.BuildOrder v).err = some invalidFilter)
    ∧ (v.isNumber = false →
      (f.BuildLimit v).Limit = none ∧ (f.BuildLimit v).err = some invalidFilter ∧
      (f.BuildSkip v).Skip = none ∧ (f.BuildSkip v).err = some invalidFilter) := by
  refine ⟨?_, ?_, ?_, ?_, ?_, ?_, ?_⟩
  · intro e he
    have herr : (f.BuildWhere v).err = some e := by rw [BuildWhere_err, he]; rfl
    refine ⟨?_, herr, herr⟩
    rw [BuildWhere_Where]
    cases v with
    | obj m =>
      simp only [whereError] at he
      cases hm : processObj m with
      | ok t => rw [hm] at he; cases he
      | error e1 => simp only [hm, Except.toOption]
    | _ => rfl
  · intro e he
    have herr : (f.BuildOrder v).err = some e := by rw [BuildOrder_err, he]; rfl
    refine ⟨?_, herr, herr⟩
    rw [BuildOrder_Order]
    cases v <;> first | rfl | cases he
  · intro e he
    have herr : (f.BuildLimit v).err = some e := by rw [BuildLimit_err, he]; rfl
    refine ⟨?_, herr, herr⟩
    rw [BuildLimit_Limit]
    cases v <;> first | rfl | cases he
  · intro e he
    have herr : (f.BuildSkip v).err = some e := by rw [BuildSkip_err, he]; rfl
    refine ⟨?_, herr, herr⟩
    rw [BuildSkip_Skip]
    cases v <;> first | rfl | cases he
  · intro hv
    cases v <;> first | exact ⟨rfl, rfl⟩ | cases hv
  · rintro ⟨hs, ha⟩
    cases v with
    | str s => cases hs
    | arr a => cases ha
    | _ => exact ⟨rfl, rfl⟩
  · intro hv
    cases v <;> first | exact ⟨rfl, rfl, rfl, rfl⟩ | cases hv

theorem C16_rejected_input_witness :
    whereError (.obj []) = some notAnObject ∧
    ((New.BuildWhere (.obj [("a", .num (.int 1))])).BuildWhere (.obj [])).Where = none ∧
    ((New.BuildWhere (.obj [("a", .num (.int 1))])).BuildWhere (.obj [])).err =
      some notAnObject ∧
    ((New.BuildWhere (.obj [("a", .num (.int 1))])).BuildWhere (.obj [])).Error.1 =
      some notAnObject :=
  ⟨rfl, (C16_rejected_input (New.BuildWhere (.obj [("a", .num (.int 1))])) (.obj [])).1
    notAnObject rfl⟩

/-- C17: from every prior state, `BuildOrder` on a list sets `Order` to the string elements of the
list in their original order, or to null (not to an empty list) when the list has no string
element, and records no error in either case; on a single string `s` it sets `Order` to the
one-element list of `s`. -/
theorem C17_build_order (f : Filter) (arr : List Value) (s : String) :
    (f.BuildOrder (.arr arr)).Order =
        (if stringsOf arr = [] then none else some (stringsOf arr))
    ∧ (f.BuildOrder (.arr arr)).err = f.err
    ∧ (f.BuildOrder (.str s)).Order = some [s]
    ∧ (f.BuildOrder (.str s)).err = f.err := by
  refine ⟨?_, ?_, ?_, ?_⟩
  · rw [BuildOrder_Order]
  · rw [BuildOrder_err]
    rfl
  · rw [BuildOrder_Order]
  · rw [BuildOrder_err]
    rfl

/-! ## Lemmas on the conversion to `int64` -/

/-- Truncated division of the numerator by the denominator discards the fractional part. -/
theorem tdiv_eq_truncate (q : ℚ) : Int.tdiv q.num q.den = truncate q := by
  unfold truncate
  by_cases h : 0 ≤ q
  · rw [if_pos h, Rat.floor_def]
    exact Int.tdiv_eq_ediv (Rat.num_nonneg.mpr h) (Int.ofNat_nonneg _)
  · rw [if_neg h]
    have hneg : 0 ≤ (-q).num := by
      rw [Rat.num_nonneg]
      linarith [not_le.mp h]
    have h1 : ⌈q⌉ = -⌊-q⌋ := by rw [Int.floor_neg, neg_neg]
    rw [h1, Rat.floor_def, Rat.neg_den, ← Int.tdiv_eq_ediv hneg (Int.ofNat_nonneg _),
      Rat.neg_num, Int.neg_tdiv, neg_neg]

theorem toInt64_of_inInt64 (x : Num) (h : inInt64 x.intPart) : toInt64 x = x.intPart := by
  cases x with
  | int i =>
    simp only [Num.intPart, inInt64] at h
    simp only [toInt64, Num.intPart]
    omega
  | float q =>
    simp only [Num.intPart, inInt64] at h
    simp only [toInt64, Num.intPart, tdiv_eq_truncate]
    rw [if_pos h]

theorem toInt64_inInt64 (x : Num) : inInt64 (toInt64 x) := by
  cases x with
  | int i =>
    simp only [toInt64, inInt64]
    omega
  | float q =>
    simp only [toInt64, inInt64]
    split
    · assumption
    · constructor <;> norm_num

/-! ## Claims on limit and skip -/

/-- C18: for a numeric input `x` whose integer part lies within the signed 64-bit range, `BuildLimit`
sets `Limit` to `x` with its fractional part discarded and records no error, and `BuildSkip` does
the same for `Skip`; for a non-numeric input the field is null after the call and the recorded
error is `invalidFilter`. -/
theorem C18_limit_skip (f : Filter) :
    (∀ x : Num, inInt64 x.intPart →
      (f.BuildLimit (.num x)).Limit = some x.intPart ∧ (f.BuildLimit (.num x)).err = f.err ∧
      (f.BuildSkip (.num x)).Skip = some x.intPart ∧ (f.BuildSkip (.num x)).err = f.err)
    ∧ (∀ v : Value, v.isNumber = false →
      (f.BuildLimit v).Limit = none ∧ (f.BuildLimit v).err = some invalidFilter ∧
      (f.BuildSkip v).Skip = none ∧ (f.BuildSkip v).err = some invalidFilter) := by
  constructor
  · intro x hx
    refine ⟨?_, rfl, ?_, rfl⟩
    · rw [BuildLimit_Limit]
      exact congrArg some (toInt64_of_inInt64 x hx)
    · rw [BuildSkip_Skip]
      exact congrArg some (toInt64_of_inInt64 x hx)
  · intro v hv
    cases v <;> first | exact ⟨rfl, rfl, rfl, rfl⟩ | cases hv

theorem C18_limit_skip_witness :
    (Num.int 5).intPart = 5 ∧ (Num.float 5).intPart = 5 ∧ (Num.float (59 / 10)).intPart = 5 ∧
    inInt64 (Num.float (59 / 10)).intPart ∧
    (New.BuildLimit (.num (.float (59 / 10)))).Limit = some (Num.float (59 / 10)).intPart ∧
    (New.BuildLimit (.num (.int 5))).Limit = some 5 ∧
    (New.BuildLimit (.num (.float 5))).Limit = some 5 ∧
    (New.BuildLimit (.str "5")).err = some invalidFilter := by
  have h59 : (Num.float (59 / 10)).intPart = 5 := by
    simp only [Num.intPart, truncate]
    norm_num
  have hin : inInt64 (Num.float (59 / 10)).intPart := by
    rw [h59]
    decide
  exact ⟨rfl, by simp [Num.intPart, truncate], h59, hin,
    ((C18_limit_skip New).1 (.float (59 / 10)) hin).1, rfl, rfl,
    ((C18_limit_skip New).2 (.str "5") rfl).2.1⟩

/-- C19 fails as stated: `BuildLimit` and `BuildSkip` on the number `-5` store `-5`. -/
theorem C19_counterexample :
    (New.BuildLimit (.num (.int (-5)))).Limit = some (-5) ∧
    (New.BuildSkip (.num (.float (-5)))).Skip = some (-5) ∧ ¬ (0 : Int) ≤ -5 :=
  ⟨rfl, rfl, by decide⟩

/-- C19, amended: `Limit` and `Skip` are optional signed 64-bit integers. After any call of
`BuildLimit` or `BuildSkip`, on any input and from any prior state, the field is null or holds an
integer of the signed 64-bit range; the integer is greater than or equal to zero when the input
is a number greater than or equal to zero whose integer part lies within that range. -/
theorem C19_limit_skip_range (f : Filter) (v : Value) :
    ((f.BuildLimit v).Limit = none ∨ ∃ l, (f.BuildLimit v).Limit = some l ∧ inInt64 l)
    ∧ ((f.BuildSkip v).Skip = none ∨ ∃ l, (f.BuildSkip v).Skip = some l ∧ inInt64 l)
    ∧ (∀ x : Num, v = .num x → 0 ≤ x.intPart → inInt64 x.intPart →
        ∃ l, (f.BuildLimit v).Limit = some l ∧ (f.BuildSkip v).Skip = some l ∧ 0 ≤ l) := by
  refine ⟨?_, ?_, ?_⟩
  · rw [BuildLimit_Limit]
    cases v with
    | num x => exact Or.inr ⟨_, rfl, toInt64_inInt64 x⟩
    | _ => exact Or.inl rfl
  · rw [BuildSkip_Skip]
    cases v with
    | num x => exact Or.inr ⟨_, rfl, toInt64_inInt64 x⟩
    | _ => exact Or.inl rfl
  · rintro x rfl h0 hx
    refine ⟨x.intPart, ?_, ?_, h0⟩
    · rw [BuildLimit_Limit]
      exact congrArg some (toInt64_of_inInt64 x hx)
    · rw [BuildSkip_Skip]
      exact congrArg some (toInt64_of_inInt64 x hx)

theorem C19_limit_skip_range_witness :
    (0 : Int) ≤ (Num.int 10).intPart ∧ inInt64 (Num.int 10).intPart ∧
    ∃ l, (New.BuildLimit (.num (.int 10))).Limit = some l ∧
      (New.BuildSkip (.num (.int 10))).Skip = some l ∧ 0 ≤ l :=
  ⟨by decide, by decide,
    (C19_limit_skip_range New (.num (.int 10))).2.2 (.int 10) rfl (by decide) (by decide)⟩

/-! ## Claims on the error slot -/

theorem Build_err (f : Filter) (obj : List (String × Value)) :
    (f.Build obj).err = (BuildCall.error (.Build obj)).or f.err := by
  rw [Build_steps]
  simp only [BuildCall.error, lastError]
  cases obj.lookup "where" <;> cases obj.lookup "order" <;> cases obj.lookup "limit" <;>
    cases obj.lookup "skip" <;>
    simp only [BuildSkip_err, BuildLimit_err, BuildOrder_err, BuildWhere_err, Option.bind,
      Option.or_none, Option.none_or, Option.or_assoc]

/-- One build call keeps the recorded error unless it fails, and then records its own. -/
theorem run_err (f : Filter) (c : BuildCall) : (c.run f).err = c.error.or f.err := by
  cases c with
  | Build obj => exact Build_err f obj
  | BuildWhere obj => exact BuildWhere_err f obj
  | BuildOrder obj => exact BuildOrder_err f obj
  | BuildLimit obj => exact BuildLimit_err f obj
  | BuildSkip obj => exact BuildSkip_err f obj

theorem foldl_run_err (cs : List BuildCall) (f : Filter) :
    (cs.foldl BuildCall.run f).err = (lastError (cs.map BuildCall.error)).or f.err := by
  induction cs generalizing f with
  | nil => rfl
  | cons c cs ih =>
    rw [List.foldl_cons, ih, run_err, List.map_cons, lastError, Option.or_assoc]

/-- C20: for every sequence of build calls made after an `Error()` call (or on a fresh `Filter`),
`Error()` returns the error recorded by the most recent failing call of the sequence, or nil when
no call of the sequence failed: a later successful call does not clear an earlier error. `Error()`
clears the slot, so that a second `Error()` right after it returns nil. From an arbitrary state the
error recorded before the sequence is returned when no call of the sequence fails. -/
theorem C20_error_slot (g : Filter) (cs : List BuildCall) :
    ((cs.foldl BuildCall.run g.Error.2).Error).1 = lastError (cs.map BuildCall.error)
    ∧ ((cs.foldl BuildCall.run New).Error).1 = lastError (cs.map BuildCall.error)
    ∧ ((cs.foldl BuildCall.run g).Error).1 = (lastError (cs.map BuildCall.error)).or g.err
    ∧ ((cs.foldl BuildCall.run g).Error).2.Error.1 = none
    ∧ (∀ c : BuildCall, (c.run g.Error.2).err = c.error)
    ∧ (cs.foldl BuildCall.run g).Error.2.Where = (cs.foldl BuildCall.run g).Where
    ∧ (cs.foldl BuildCall.run g).Error.2.Order = (cs.foldl BuildCall.run g).Order
    ∧ (cs.foldl BuildCall.run g).Error.2.Limit = (cs.foldl BuildCall.run g).Limit
    ∧ (cs.foldl BuildCall.run g).Error.2.Skip = (cs.foldl BuildCall.run g).Skip := by
  refine ⟨?_, ?_, ?_, rfl, ?_, rfl, rfl, rfl, rfl⟩
  · show (cs.foldl BuildCall.run g.Error.2).err = _
    rw [foldl_run_err]
    exact Option.or_none
  · show (cs.foldl BuildCall.run New).err = _
    rw [foldl_run_err]
    exact Option.or_none
  · exact foldl_run_err cs g
  · intro c
    rw [run_err]
    exact Option.or_none

/-- An example for C20: a rejected `where`, then an accepted `limit`; the error stays until
`Error()` is called. -/
theorem error_slot_example :
    ((New.BuildWhere (.str "x")).BuildLimit (.num (.float 5))).Error.1 = some invalidFilter
    ∧ ((New.BuildWhere (.str "x")).BuildLimit (.num (.float 5))).Error.2.Error.1 = none :=
  ⟨rfl, rfl⟩

/-! ## Claim on chained combination -/

/-- C23: chaining the combination helper equals one variadic call. For every `Filter` state and all
lists of trees `as` and `bs`, `And(as)` followed by `And(bs)` leaves the `Filter` in the same state as
`And(as, bs)`: the same `AND` node with the same children in the same order, and `Order`, `Limit`,
`Skip` and the error slot as they were; the same holds for `Or`. -/
theorem C23_chained_and_or (f : Filter) (as bs : List Where) :
    (f.And as).And bs = f.And (as ++ bs)
    ∧ (f.Or as).Or bs = f.Or (as ++ bs)
    ∧ (f.And (as ++ bs)).Order = f.Order ∧ (f.And (as ++ bs)).Limit = f.Limit
    ∧ (f.And (as ++ bs)).Skip = f.Skip ∧ (f.And (as ++ bs)).err = f.err
    ∧ (f.Or (as ++ bs)).Order = f.Order ∧ (f.Or (as ++ bs)).Limit = f.Limit
    ∧ (f.Or (as ++ bs)).Skip = f.Skip ∧ (f.Or (as ++ bs)).err = f.err := by
  refine ⟨?_, ?_, rfl, rfl, rfl, rfl, rfl, rfl, rfl, rfl⟩
  · simp only [Filter.And, andArgs_eq, List.nil_append, List.flatMap_append, List.append_assoc]
  · simp only [Filter.Or, orArgs_eq, List.nil_append, List.flatMap_append, List.append_assoc]

/-! ## Lemmas on the shape of the parsed trees -/

theorem wellFormedAll_iff (children : List Where) :
    wellFormedAll children = true ↔ ∀ c ∈ children, c.wellFormed = true := by
  induction children with
  | nil => rw [wellFormedAll.eq_def]; simp
  | cons c cs ih => rw [wellFormedAll.eq_def]; simp [ih]

theorem wellFormed_andCdt (children : List Where) :
    (Where.andCdt children).wellFormed = true ↔
      children ≠ [] ∧ ∀ c ∈ children, c.wellFormed = true := by
  rw [Where.wellFormed.eq_def]
  cases children with
  | nil => simp
  | cons c cs => simp [wellFormedAll_iff]

theorem wellFormed_orCdt (children : List Where) :
    (Where.orCdt children).wellFormed = true ↔
      children ≠ [] ∧ ∀ c ∈ children, c.wellFormed = true := by
  rw [Where.wellFormed.eq_def]
  cases children with
  | nil => simp
  | cons c cs => simp [wellFormedAll_iff]

theorem firstDatatype_mem (arr : List Value) (d : String) (h : firstDatatype arr = some d) :
    ∃ v ∈ arr, v.datatype = some d := by
  induction arr with
  | nil => cases h
  | cons v vs ih =>
    cases v with
    | str s => exact ⟨_, List.mem_cons_self _ _, h⟩
    | num n => exact ⟨_, List.mem_cons_self _ _, h⟩
    | bool b => exact ⟨_, List.mem_cons_self _ _, h⟩
    | null => obtain ⟨w, hw, hd⟩ := ih h; exact ⟨w, List.mem_cons_of_mem _ hw, hd⟩
    | arr a => obtain ⟨w, hw, hd⟩ := ih h; exact ⟨w, List.mem_cons_of_mem _ hw, hd⟩
    | obj m => obtain ⟨w, hw, hd⟩ := ih h; exact ⟨w, List.mem_cons_of_mem _ hw, hd⟩

theorem elementsOf_ne_nil (arr : List Value) (d : String) (h : firstDatatype arr = some d) :
    elementsOf d arr ≠ [] := by
  obtain ⟨v, hv, hd⟩ := firstDatatype_mem arr d h
  intro hnil
  have hmem : v ∈ elementsOf d arr := List.mem_filter.mpr ⟨hv, by simpa using hd⟩
  rw [hnil] at hmem
  exact absurd hmem (List.not_mem_nil v)

theorem elementsOf_datatype (d : String) (arr : List Value) :
    ∀ v ∈ elementsOf d arr, v.datatype = some d := by
  intro v hv
  simpa using (List.mem_filter.mp hv).2

/-- The value list that `processIn` stores is well formed. -/
theorem valuesWellFormed_elementsOf (arr : List Value) (d : String)
    (h : firstDatatype arr = some d) :
    valuesWellFormed d ((elementsOf d arr).map Value.toScalar) = true := by
  have hne := elementsOf_ne_nil arr d h
  have hdt := elementsOf_datatype d arr
  have hempty : ((elementsOf d arr).map Value.toScalar).isEmpty = false := by
    cases hl : elementsOf d arr with
    | nil => exact absurd hl hne
    | cons x xs => rfl
  unfold valuesWellFormed
  rw [hempty]
  rcases firstDatatype_tag arr d h with rfl | rfl | rfl
  · have hall : ((elementsOf "s" arr).map Value.toScalar).all Scalar.isStr = true := by
      rw [List.all_eq_true]
      intro s hs
      obtain ⟨v, hv, rfl⟩ := List.mem_map.mp hs
      have hd := hdt v hv
      cases v <;> first | (simp [Value.datatype] at hd; done) | rfl
    rw [hall]
    rfl
  · have hall : ((elementsOf "n" arr).map Value.toScalar).all Scalar.isNum = true := by
      rw [List.all_eq_true]
      intro s hs
      obtain ⟨v, hv, rfl⟩ := List.mem_map.mp hs
      have hd := hdt v hv
      cases v <;> first | (simp [Value.datatype] at hd; done) | rfl
    rw [hall]
    simp
  · have hall : ((elementsOf "b" arr).map Value.toScalar).all Scalar.isBool = true := by
      rw [List.all_eq_true]
      intro s hs
      obtain ⟨v, hv, rfl⟩ := List.mem_map.mp hs
      have hd := hdt v hv
      cases v <;> first | (simp [Value.datatype] at hd; done) | rfl
    rw [hall]
    simp

/-- A successful `processIn` returns an `inCdt` node, with the elements of the first datatype. -/
theorem processIn_ok_inv (key : String) (val : Value) (w : Where)
    (h : processIn key val = .ok w) :
    ∃ arr d, val = .arr arr ∧ firstDatatype arr = some d ∧
      w = .inCdt key d ((elementsOf d arr).map Value.toScalar) := by
  cases val with
  | arr arr =>
    cases hd : firstDatatype arr with
    | none =>
      have herr : processIn key (.arr arr) = .error emptyArray := by
        rw [processIn]
        split
        · rfl
        · rw [detectDatatype_eq, hd]
      rw [herr] at h
      cases h
    | some d =>
      rw [processIn_ok key arr d hd] at h
      exact ⟨arr, d, rfl, hd, (Except.ok.inj h).symm⟩
  | null => cases h
  | bool b => cases h
  | num n => cases h
  | str s => cases h
  | obj m => cases h

/-- A successful `processNeq` returns a `neqCdt` node. -/
theorem processNeq_ok_inv (key : String) (val : Value) (w : Where)
    (h : processNeq key val = .ok w) : ∃ value, w = .neqCdt key value := by
  cases val with
  | str s => exact ⟨_, (Except.ok.inj h).symm⟩
  | num n => exact ⟨_, (Except.ok.inj h).symm⟩
  | bool b => exact ⟨_, (Except.ok.inj h).symm⟩
  | null => cases h
  | arr a => cases h
  | obj m => cases h

/-- A successful `processLike` returns a `likeCdt` node. -/
theorem processLike_ok_inv (key : String) (val : Value) (w : Where)
    (h : processLike key val = .ok w) : ∃ value, w = .likeCdt key value := by
  cases val with
  | str s => exact ⟨_, (Except.ok.inj h).symm⟩
  | num n => cases h
  | bool b => cases h
  | null => cases h
  | arr a => cases h
  | obj m => cases h

theorem processIn_error_inv (key : String) (val : Value) (e : String)
    (h : processIn key val = .error e) : e = notAnArray ∨ e = emptyArray := by
  cases val with
  | arr arr =>
    cases hd : firstDatatype arr with
    | none =>
      have herr : processIn key (.arr arr) = .error emptyArray := by
        rw [processIn]
        split
        · rfl
        · rw [detectDatatype_eq, hd]
      rw [herr] at h
      exact Or.inr (Except.error.inj h).symm
    | some d =>
      rw [processIn_ok key arr d hd] at h
      cases h
  | null => exact Or.inl (Except.error.inj h).symm
  | bool b => exact Or.inl (Except.error.inj h).symm
  | num n => exact Or.inl (Except.error.inj h).symm
  | str s => exact Or.inl (Except.error.inj h).symm
  | obj m => exact Or.inl (Except.error.inj h).symm

theorem goodOutcome_processNeq (key : String) (val : Value) :
    goodOutcome (processNeq key val) := by
  cases val <;> simp [processNeq, goodOutcome, Where.wellFormed, parserErrors]

theorem goodOutcome_processLt (key : String) (val : Value) :
    goodOutcome (processLt key val) := by
  cases val <;> simp [processLt, processNeq, goodOutcome, Where.wellFormed, parserErrors]

theorem goodOutcome_processLte (key : String) (val : Value) :
    goodOutcome (processLte key val) := by
  cases val <;> simp [processLte, processNeq, goodOutcome, Where.wellFormed, parserErrors]

theorem goodOutcome_processGt (key : String) (val : Value) :
    goodOutcome (processGt key val) := by
  cases val <;> simp [processGt, processNeq, goodOutcome, Where.wellFormed, parserErrors]

theorem goodOutcome_processGte (key : String) (val : Value) :
    goodOutcome (processGte key val) := by
  cases val <;> simp [processGte, processNeq, goodOutcome, Where.wellFormed, parserErrors]

theorem goodOutcome_processLike (key : String) (val : Value) :
    goodOutcome (processLike key val) := by
  cases val <;> simp [processLike, goodOutcome, Where.wellFormed, parserErrors]

theorem goodOutcome_processNlike (key : String) (val : Value) :
    goodOutcome (processNlike key val) := by
  cases val <;> simp [processNlike, processLike, goodOutcome, Where.wellFormed, parserErrors]

theorem goodOutcome_processIn (key : String) (val : Value) :
    goodOutcome (processIn key val) := by
  cases h : processIn key val with
  | ok w =>
    obtain ⟨arr, d, _, hd, rfl⟩ := processIn_ok_inv key val w h
    show (Where.inCdt key d _).wellFormed = true
    rw [Where.wellFormed.eq_def]
    exact valuesWellFormed_elementsOf arr d hd
  | error e =>
    show e ∈ parserErrors
    rcases processIn_error_inv key val e h with rfl | rfl <;> simp [parserErrors]

theorem goodOutcome_processNin (key : String) (val : Value) :
    goodOutcome (processNin key val) := by
  rw [processNin]
  cases h : processIn key val with
  | ok w =>
    obtain ⟨arr, d, _, hd, rfl⟩ := processIn_ok_inv key val w h
    show (Where.ninCdt key d _).wellFormed = true
    rw [Where.wellFormed.eq_def]
    exact valuesWellFormed_elementsOf arr d hd
  | error e =>
    show e ∈ parserErrors
    rcases processIn_error_inv key val e h with rfl | rfl <;> simp [parserErrors]

theorem goodOutcome_primitiveCdtStd (key : String) (obj : List (String × Value)) :
    goodOutcome (primitiveCdtStd key obj) := by
  by_cases hlen : obj.length = 1
  · cases obj with
    | nil => cases hlen
    | cons kv rest =>
      cases rest with
      | cons kv2 rest2 => simp at hlen
      | nil =>
        obtain ⟨op, val⟩ := kv
        rw [primitiveCdtStd_one]
        repeat' split
        · exact goodOutcome_processNeq key val
        · exact goodOutcome_processLt key val
        · exact goodOutcome_processLte key val
        · exact goodOutcome_processGt key val
        · exact goodOutcome_processGte key val
        · exact goodOutcome_processLike key val
        · exact goodOutcome_processNlike key val
        · exact goodOutcome_processIn key val
        · exact goodOutcome_processNin key val
        · simp [goodOutcome, parserErrors]
  · rw [primitiveCdtStd.eq_def, if_pos hlen]
    simp [goodOutcome, parserErrors]

theorem goodOutcome_primitiveCdt (key : String) (val : Value) :
    goodOutcome (primitiveCdt key val) := by
  cases val with
  | obj m => exact goodOutcome_primitiveCdtStd key m
  | _ => simp [primitiveCdt, goodOutcome, Where.wellFormed, parserErrors]

theorem elems_of_forall₂_right (vs : List Value) (ts : List Where)
    (h : List.Forall₂ (fun v t => compoundElem v = .ok t) vs ts) :
    ∀ t ∈ ts, ∃ v ∈ vs, compoundElem v = .ok t := by
  induction h with
  | nil => intro t ht; exact absurd ht (List.not_mem_nil t)
  | cons hv _ ih =>
    intro t ht
    rcases List.mem_cons.mp ht with rfl | ht
    · exact ⟨_, List.mem_cons_self _ _, hv⟩
    · obtain ⟨v, hv1, hv2⟩ := ih t ht
      exact ⟨v, List.mem_cons_of_mem _ hv1, hv2⟩

theorem forall₂_ne_nil (vs : List Value) (ts : List Where) (hne : vs ≠ [])
    (h : List.Forall₂ (fun v t => compoundElem v = .ok t) vs ts) : ts ≠ [] := by
  cases h with
  | nil => exact absurd rfl hne
  | cons _ _ => exact List.cons_ne_nil _ _

/-- The outcome of `compoundCdt` is in the closed set when the outcomes of the elements are. -/
theorem goodOutcome_compoundCdt (key : String) (arr : List Value)
    (hrec : ∀ v ∈ arr, goodOutcome (compoundElem v)) : goodOutcome (compoundCdt key arr) := by
  rw [compoundCdt]
  by_cases hlen : arr.length = 0
  · rw [if_pos hlen]
    simp [goodOutcome, parserErrors]
  · rw [if_neg hlen]
    have hne : arr ≠ [] := fun h => hlen (by rw [h]; rfl)
    rcases elems_ok_or_first_error arr with ⟨ts, hts⟩ | ⟨pre, w, post, e, hsplit, hpre, hw⟩
    · rw [compoundLoop_ok arr ts hts]
      have hwf : ∀ t ∈ ts, t.wellFormed = true := by
        intro t ht
        obtain ⟨v, hv, hvt⟩ := elems_of_forall₂_right arr ts hts t ht
        have hg := hrec v hv
        rw [hvt] at hg
        exact hg
      have hts_ne := forall₂_ne_nil arr ts hne hts
      show (ts.foldl Where.Child _).wellFormed = true
      split
      · rw [foldl_Child_andCdt, List.nil_append]
        exact (wellFormed_andCdt ts).mpr ⟨hts_ne, hwf⟩
      · rw [foldl_Child_orCdt, List.nil_append]
        exact (wellFormed_orCdt ts).mpr ⟨hts_ne, hwf⟩
    · rw [hsplit, compoundLoop_error pre w post e hpre hw]
      have hg := hrec w (by rw [hsplit]; simp)
      rw [hw] at hg
      exact hg

/-- The outcome of `processObj` is in the closed set when the outcomes of the elements of the
array under its key are. -/
theorem goodOutcome_processObj_of (obj : List (String × Value))
    (hrec : ∀ key arr, obj = [(key, .arr arr)] → ∀ v ∈ arr, goodOutcome (compoundElem v)) :
    goodOutcome (processObj obj) := by
  by_cases hlen : obj.length = 1
  · cases obj with
    | nil => cases hlen
    | cons kv rest =>
      cases rest with
      | cons kv2 rest2 => simp at hlen
      | nil =>
        obtain ⟨key, val⟩ := kv
        rw [processObj_one]
        split
        · cases val with
          | arr arr => exact goodOutcome_compoundCdt _ arr (hrec key arr rfl)
          | _ => simp [goodOutcome, parserErrors]
        · split
          · simp [goodOutcome, parserErrors]
          · exact goodOutcome_primitiveCdt key val
  · rw [processObj_length_ne_one obj hlen]
    simp [goodOutcome, parserErrors]

theorem goodOutcome_compoundElem_lt (n : Nat) :
    ∀ v : Value, sizeOf v < n → goodOutcome (compoundElem v) := by
  induction n with
  | zero => intro v hv; exact absurd hv (Nat.not_lt_zero _)
  | succ n ih =>
    intro v hv
    cases v with
    | obj m =>
      rw [compoundElem_obj]
      apply goodOutcome_processObj_of
      intro key arr hm w hw
      apply ih
      have hlt := List.sizeOf_lt_of_mem hw
      rw [hm] at hv
      simp only [Value.obj.sizeOf_spec, List.cons.sizeOf_spec, List.nil.sizeOf_spec,
        Prod.mk.sizeOf_spec, Value.arr.sizeOf_spec] at hv
      omega
    | _ => rw [compoundElem.eq_def]; simp [goodOutcome, parserErrors]

/-- Every outcome of `processObj` is a well-formed tree or an error text of the closed set. -/
theorem goodOutcome_processObj (obj : List (String × Value)) : goodOutcome (processObj obj) := by
  rw [← compoundElem_obj]
  exact goodOutcome_compoundElem_lt _ _ (Nat.lt_succ_self _)

/-! ## Claims on the where-parser as a whole -/

/-- C21: every tree returned by a successful `processObj`, and hence every non-null `Where` stored by
`BuildWhere`, is well formed: every `And`/`Or` node in it has at least one child, and every `In`/`Nin`
node in it has a non-empty value list whose datatype tag is `s`, `n` or `b` and whose values are all
of that one datatype (all strings, all numbers, or all booleans). -/
theorem C21_well_formed (obj : List (String × Value)) (t : Where)
    (h : processObj obj = .ok t) :
    t.wellFormed = true
    ∧ (∀ f : Filter, (f.BuildWhere (.obj obj)).Where = some t)
    ∧ (∀ (f : Filter) (v : Value) (w : Where),
        (f.BuildWhere v).Where = some w → w.wellFormed = true) := by
  have ht : t.wellFormed = true := by
    have hg := goodOutcome_processObj obj
    rw [h] at hg
    exact hg
  refine ⟨ht, ?_, ?_⟩
  · intro f
    rw [BuildWhere_Where]
    simp only [h, Except.toOption]
  · intro f v w hw
    rw [BuildWhere_Where] at hw
    cases v with
    | obj m =>
      have hg := goodOutcome_processObj m
      cases hm : processObj m with
      | ok t1 =>
        rw [hm] at hg
        simp only [hm, Except.toOption] at hw
        rw [← Option.some.inj hw]
        exact hg
      | error e => simp only [hm, Except.toOption] at hw; cases hw
    | null => cases hw
    | bool b => cases hw
    | num n => cases hw
    | str s => cases hw
    | arr a => cases hw

theorem C21_well_formed_witness :
    processObj [("or", .arr [.obj [("a", .obj [("in", .arr [.num (.int 1), .str "x",
        .num (.int 2)])])], .obj [("b", .bool true)]])] =
      .ok (.orCdt [.inCdt "a" "n" [.num (.int 1), .num (.int 2)], .eqCdt "b" (.bool true)])
    ∧ (Where.orCdt [.inCdt "a" "n" [.num (.int 1), .num (.int 2)],
        .eqCdt "b" (.bool true)]).wellFormed = true :=
  ⟨rfl, (C21_well_formed
    [("or", .arr [.obj [("a", .obj [("in", .arr [.num (.int 1), .str "x", .num (.int 2)])])],
      .obj [("b", .bool true)]])]
    (.orCdt [.inCdt "a" "n" [.num (.int 1), .num (.int 2)], .eqCdt "b" (.bool true)]) rfl).1⟩

/-- C22: the where-parser is total with a closed error set. For every mapping `processObj` (a total
function) returns a tree or fails with exactly one of `notAnObject`, `notAnArray`, `emptyArray`,
`reservedKeyword`, `invalidKeyword`, `notSupportType`; the `unknownError` fallbacks of `processObj` and
`primitiveCdtStd` are never reached; the type assertions on the results of the reused validators
in `processLt`, `processLte`, `processGt`, `processGte`, `processNlike`, `processNin` never fail; and
`BuildWhere` records `invalidFilter` or one of these errors, or leaves the error slot as it was. -/
theorem C22_total_closed (obj : List (String × Value)) :
    ((∃ t, processObj obj = .ok t) ∨ ∃ e ∈ parserErrors, processObj obj = .error e)
    ∧ parserErrors.Nodup ∧ unknownError ∉ parserErrors ∧ assertionPanic ∉ parserErrors
    ∧ processObj obj ≠ .error unknownError
    ∧ processObj obj ≠ .error assertionPanic
    ∧ (∀ key, primitiveCdtStd key obj ≠ .error unknownError
        ∧ primitiveCdtStd key obj ≠ .error assertionPanic)
    ∧ (∀ key val w, processNeq key val = .ok w → ∃ value, w = .neqCdt key value)
    ∧ (∀ key val w, processLike key val = .ok w → ∃ value, w = .likeCdt key value)
    ∧ (∀ key val w, processIn key val = .ok w → ∃ datatype values,
        w = .inCdt key datatype values)
    ∧ (∀ key val, processLt key val ≠ .error assertionPanic
        ∧ processLte key val ≠ .error assertionPanic
        ∧ processGt key val ≠ .error assertionPanic
        ∧ processGte key val ≠ .error assertionPanic
        ∧ processNlike key val ≠ .error assertionPanic
        ∧ processNin key val ≠ .error assertionPanic)
    ∧ (∀ (f : Filter) (v : Value), (f.BuildWhere v).err = f.err
        ∨ ∃ e ∈ invalidFilter :: parserErrors, (f.BuildWhere v).err = some e) := by
  have hunk : unknownError ∉ parserErrors := by decide
  have hpan : assertionPanic ∉ parserErrors := by decide
  have hne : ∀ (r : Except String Where) (e : String), goodOutcome r → e ∉ parserErrors →
      r ≠ .error e := by
    intro r e hg he hr
    rw [hr] at hg
    exact he hg
  have hobj := goodOutcome_processObj obj
  refine ⟨?_, by decide, hunk, hpan, hne _ _ hobj hunk, hne _ _ hobj hpan, ?_, ?_, ?_, ?_, ?_, ?_⟩
  · cases h : processObj obj with
    | ok t => exact Or.inl ⟨t, rfl⟩
    | error e =>
      rw [h] at hobj
      exact Or.inr ⟨e, hobj, rfl⟩
  · intro key
    exact ⟨hne _ _ (goodOutcome_primitiveCdtStd key obj) hunk,
      hne _ _ (goodOutcome_primitiveCdtStd key obj) hpan⟩
  · exact processNeq_ok_inv
  · exact processLike_ok_inv
  · intro key val w h
    obtain ⟨arr, d, _, _, hw⟩ := processIn_ok_inv key val w h
    exact ⟨_, _, hw⟩
  · intro key val
    exact ⟨hne _ _ (goodOutcome_processLt key val) hpan,
      hne _ _ (goodOutcome_processLte key val) hpan,
      hne _ _ (goodOutcome_processGt key val) hpan,
      hne _ _ (goodOutcome_processGte key val) hpan,
      hne _ _ (goodOutcome_processNlike key val) hpan,
      hne _ _ (goodOutcome_processNin key val) hpan⟩
  · intro f v
    rw [BuildWhere_err]
    cases v with
    | obj m =>
      have hm := goodOutcome_processObj m
      simp only [whereError]
      cases h : processObj m with
      | ok t => exact Or.inl rfl
      | error e =>
        rw [h] at hm
        exact Or.inr ⟨e, List.mem_cons_of_mem _ hm, rfl⟩
    | null => exact Or.inr ⟨invalidFilter, List.mem_cons_self _ _, rfl⟩
    | bool b => exact Or.inr ⟨invalidFilter, List.mem_cons_self _ _, rfl⟩
    | num n => exact Or.inr ⟨invalidFilter, List.mem_cons_self _ _, rfl⟩
    | str s => exact Or.inr ⟨invalidFilter, List.mem_cons_self _ _, rfl⟩
    | arr a => exact Or.inr ⟨invalidFilter, List.mem_cons_self _ _, rfl⟩

end filter
